import Mathlib

/-!
# Thingful client: a shallow embedding of lib/thingful.js

The client object is a record of six mutable fields. Every operation of the
client is a function from a world (the client record together with the log of
HTTP requests issued so far) to the way its promise settles and the world
afterwards. The transport is a function that answers the n-th request for a
given URL, so it covers both a fixed sequence of responses and a server that
is a function of the URL.

JavaScript values are modelled by `JSVal`: the primitives that can sit in a
field of the client or in a JSON document, plus plain objects identified by a
tag. A number is identified by the text JavaScript renders it as, which is all
the client ever does with a number besides testing whether it is falsy.
-/

namespace Thingful

/-! ## JavaScript values -/

/-- A JavaScript value: `undefined` (also what reading an absent property
gives), `null`, a boolean, a number, a string, or a plain object identified
by a tag. A number is given by its rendering under the conversion of a number
to a string (`51.15`, `0.1`, `1e+21`, `NaN`), which determines the number up
to the sign of zero. -/
inductive JSVal where
  | undefined
  | null
  | bool (b : Bool)
  | num (text : String)
  | str (s : String)
  | obj (tag : String)
  deriving DecidableEq

/-- Truthiness, as tested by `if (v)`, `!v` and `v || w`; the falsy numbers
are zero (either sign, rendered `0`) and `NaN`. -/
def JSVal.truthy : JSVal → Bool
  | .undefined => false
  | .null => false
  | .bool b => b
  | .num text => text != "0" && text != "NaN"
  | .str s => s != ""
  | .obj _ => true

/-- The value of `a || b`. -/
def JSVal.orElse (a b : JSVal) : JSVal :=
  if a.truthy then a else b

/-- The result of `typeof v`. -/
def JSVal.typeof : JSVal → String
  | .undefined => "undefined"
  | .null => "object"
  | .bool _ => "boolean"
  | .num _ => "number"
  | .str _ => "string"
  | .obj _ => "object"

/-- The string a value is converted to by `'text' + v` and when it is used as
a property key. -/
def JSVal.toStr : JSVal → String
  | .undefined => "undefined"
  | .null => "null"
  | .bool true => "true"
  | .bool false => "false"
  | .num text => text
  | .str s => s
  | .obj _ => "[object Object]"

/-! ## Data model -/

/-- The geobounds object; a field that is missing reads as `undefined`. -/
structure Bounds where
  minLat : JSVal
  maxLat : JSVal
  minLon : JSVal
  maxLon : JSVal
  deriving DecidableEq

/-- What can stand where geobounds are expected: `undefined`, `null`, or an
object. Reading a field of `null` throws a `TypeError`. Any other primitive
reads every field as `undefined`, like an object without fields, and is
represented as one. -/
inductive BoundsVal where
  | undefined
  | null
  | object (b : Bounds)
  deriving DecidableEq

/-- One entry of `attributes.channels` of a raw record. -/
structure RawChannel where
  id : JSVal
  value : JSVal
  unit : JSVal
  recorded_at : JSVal
  deriving DecidableEq

/-- The `attributes` object of a raw record. -/
structure RawAttributes where
  title : JSVal
  description : JSVal
  datasource : JSVal
  created_at : JSVal
  updated_at : JSVal
  indexed_at : JSVal
  longitude : JSVal
  latitude : JSVal
  distance : JSVal
  channels : List RawChannel
  deriving DecidableEq

/-- A raw record of the `data` array of a response. -/
structure RawData where
  id : JSVal
  attributes : RawAttributes
  relationships : JSVal
  deriving DecidableEq

/-- The value stored under one key of the `data` object of a Thing. -/
structure DataEntry where
  value : JSVal
  unit : JSVal
  recordedAt : JSVal
  deriving DecidableEq

/-- The `data` object of a Thing: its own properties, each key occurring once,
and the entry that an assignment to the key `__proto__` has made its
prototype, if any (otherwise the prototype is `Object.prototype`). -/
structure DataObject where
  own : List (String × DataEntry)
  proto : Option DataEntry
  deriving DecidableEq

/-- The object `Thing` builds (`parsedData` in the source). -/
structure ParsedData where
  id : JSVal
  title : JSVal
  description : JSVal
  datasource : JSVal
  createdAt : JSVal
  updatedAt : JSVal
  indexedAt : JSVal
  longitude : JSVal
  latitude : JSVal
  distance : JSVal
  data : DataObject
  relationships : JSVal
  deriving DecidableEq

/-- The assignment of an own property: an existing key keeps its place and
gets the new value, a new key is added. -/
def setOwn (own : List (String × DataEntry)) (k : String) (v : DataEntry) :
    List (String × DataEntry) :=
  match own with
  | [] => [(k, v)]
  | (k0, v0) :: rest =>
    if k0 = k then (k0, v) :: rest else (k0, v0) :: setOwn rest k v

/-- The assignment `o[k] = v` of an entry: the key `__proto__` replaces the
prototype and creates no own property, every other key is an own property. -/
def setProp (o : DataObject) (k : String) (v : DataEntry) : DataObject :=
  if k = "__proto__" then { o with proto := some v }
  else { o with own := setOwn o.own k v }

/-- The lookup of a key among own properties. -/
def getOwn (own : List (String × DataEntry)) (k : String) : Option DataEntry :=
  match own with
  | [] => none
  | (k0, v0) :: rest => if k0 = k then some v0 else getOwn rest k

/-- The entry that the read `o[k]` finds stored under `k`: the own property,
or for the key `__proto__` the prototype entry; `none` when no assignment has
stored an entry under `k`. -/
def getProp (o : DataObject) (k : String) : Option DataEntry :=
  if k = "__proto__" then o.proto else getOwn o.own k

/-- The entry `Thing` stores for one channel. -/
def channelEntry (dataPreview : RawChannel) : DataEntry :=
  { value := dataPreview.value.orElse .null
    unit := dataPreview.unit.orElse .null
    recordedAt := dataPreview.recorded_at }

/-- The function `thingful.Thing`: flattens a raw record. The `forEach` over
`attributes.channels` is the left fold, starting from the empty object. -/
def Thing (rawData : RawData) : ParsedData :=
  let attributes := rawData.attributes
  { id := rawData.id
    title := attributes.title
    description := attributes.description
    datasource := attributes.datasource
    createdAt := attributes.created_at
    updatedAt := attributes.updated_at
    indexedAt := attributes.indexed_at
    longitude := attributes.longitude
    latitude := attributes.latitude
    distance := attributes.distance
    data := attributes.channels.foldl
      (fun data dataPreview => setProp data dataPreview.id.toStr (channelEntry dataPreview))
      { own := [], proto := none }
    relationships := rawData.relationships }

/-- The client object. -/
structure Client where
  things : List ParsedData
  limit : JSVal
  currentQuery : JSVal
  bounds : BoundsVal
  currentPage : JSVal
  nextPage : JSVal
  deriving DecidableEq

/-- The object `ThingfulClient` starts from: `things: []`, `limit: 10`, and
every other field absent. -/
def createClient : Client :=
  { things := []
    limit := .num "10"
    currentQuery := .undefined
    bounds := .undefined
    currentPage := .undefined
    nextPage := .undefined }

/-! ## Transport -/

/-- The `links` object of a response body. -/
structure Links where
  self : JSVal
  next : JSVal
  deriving DecidableEq

/-- A response body that has `links` and `data`. -/
structure Body where
  links : Links
  data : List RawData
  deriving DecidableEq

/-- What the `request` callback receives: a transport error (the error object
of the library, named by its message), or a response with its status code
and body. -/
inductive Reply where
  | error (err : String)
  | response (statusCode : Int) (body : Body)
  deriving DecidableEq

/-- The transport: the reply to a request, given how many requests were made
before it and the URL it asks for. -/
abbrev Net := Nat → JSVal → Reply

/-- The client and the URLs requested so far, oldest first. -/
structure World where
  client : Client
  requests : List JSVal
  deriving DecidableEq

/-- The value a promise is rejected with: a string of the client, the error
object passed on from the transport, or an error object thrown by the
runtime inside the promise (named by its kind, `TypeError`). -/
inductive Rejection where
  | message (text : String)
  | transport (err : String)
  | thrown (kind : String)
  deriving DecidableEq

/-- How a call ends: its promise resolves (always to the client itself), its
promise rejects, or the call throws before returning a promise. -/
inductive Outcome where
  | resolved
  | rejected (reason : Rejection)
  | threw (error : String)
  deriving DecidableEq

/-! ## Operations of the client -/

/-- The test on the four fields of a geobounds object, shared by `execute`
and `query`: true when one of them is `undefined`. -/
def fieldMissing (b : Bounds) : Bool :=
  b.minLat == .undefined || b.maxLat == .undefined ||
    b.minLon == .undefined || b.maxLon == .undefined

/-- The query string `execute` builds when it does not follow a cursor. -/
def freshUrl (b : Bounds) (limit currentQuery : JSVal) : String :=
  "https://api.thingful.net/things?" ++
    "geobound-minlong=" ++ b.minLon.toStr ++
    "&geobound-maxlong=" ++ b.maxLon.toStr ++
    "&geobound-minlat=" ++ b.minLat.toStr ++
    "&geobound-maxlat=" ++ b.maxLat.toStr ++
    "&limit=" ++ limit.toStr ++
    "&q=" ++ currentQuery.toStr

/-- The call `request(..., callback)` of `execute` and its callback: the URL
is logged, a transport error or a status other than 200 rejects, and a 200
response stores the pagination links and the mapped things. -/
def request (net : Net) (url : JSVal) (w : World) : Outcome × World :=
  let w1 : World := { w with requests := w.requests ++ [url] }
  match net w.requests.length url with
  | .error err => (.rejected (.transport err), w1)
  | .response statusCode body =>
    if statusCode ≠ 200 then
      (.rejected (.message ("Bad HTTP Response (" ++ toString statusCode ++ ")")), w1)
    else
      (.resolved,
        { w1 with
          client :=
            { w1.client with
              currentPage := body.links.self
              nextPage := body.links.next.orElse .null
              things := body.data.map Thing } })

/-- The method `client.execute(executeCurrentPage)`. The bounds test reads
`client.bounds.minLat` when the bounds are not `undefined`; for `null` that
read throws inside the promise, which rejects with the `TypeError`. -/
def execute (net : Net) (executeCurrentPage : JSVal) (w : World) : Outcome × World :=
  let executeCurrentPage := executeCurrentPage.orElse (.bool false)
  let url : JSVal :=
    if executeCurrentPage = .bool true ∧ w.client.currentPage ≠ .null then
      w.client.currentPage
    else .undefined
  if !executeCurrentPage.truthy ∨ url = .undefined then
    if w.client.currentQuery = .undefined then
      (.rejected (.message "No query was defined"), w)
    else
      match w.client.bounds with
      | .undefined => (.rejected (.message "Invalid geobounds parameter"), w)
      | .null => (.rejected (.thrown "TypeError"), w)
      | .object b =>
        if fieldMissing b then
          (.rejected (.message "Invalid geobounds parameter"), w)
        else
          request net (.str (freshUrl b w.client.limit w.client.currentQuery)) w
  else
    request net url w

/-- The method `client.query(queryString, bounds)`. As in `execute`, `null`
bounds make the read of `bounds.minLat` throw inside the promise. -/
def query (net : Net) (queryString : JSVal) (bounds : BoundsVal) (w : World) :
    Outcome × World :=
  if queryString = .undefined ∨ queryString.typeof ≠ "string" then
    (.rejected (.message "No query was defined"), w)
  else
    match bounds with
    | .undefined => (.rejected (.message "Invalid geobounds parameter"), w)
    | .null => (.rejected (.thrown "TypeError"), w)
    | .object b =>
      if fieldMissing b then
        (.rejected (.message "Invalid geobounds parameter"), w)
      else
        execute net .undefined
          { w with
            client := { w.client with currentQuery := queryString, bounds := .object b } }

/-- The method `client.next()`. -/
def next (net : Net) (w : World) : Outcome × World :=
  execute net (.bool true)
    { w with client := { w.client with currentPage := w.client.nextPage } }

/-- The argument object of `nextPageUntilAmount`; `none` is an absent
property. -/
structure Args where
  amount : Option Int
  query : JSVal
  bounds : BoundsVal
  unit : JSVal
  fullThingsArray : Option (List ParsedData)
  deriving DecidableEq

/-- The keys of the own properties of a `data` object. -/
def ownKeys (o : DataObject) : List String :=
  o.own.map Prod.fst

/-- The keys that `for (dataObj in thing.data)` visits: the own keys, then
the enumerable keys inherited from a prototype entry (`value`, `unit`,
`recordedAt`) that no own key shadows. -/
def enumeratedKeys (o : DataObject) : List String :=
  ownKeys o ++
    match o.proto with
    | none => []
    | some _ => ["value", "unit", "recordedAt"].filter (fun k => !(ownKeys o).contains k)

/-- The call `thing.data.hasOwnProperty(k)`: when the object has an own
property named `hasOwnProperty` (an entry, not a function) the call throws a
`TypeError`, here `none`; otherwise it tells whether `k` is an own key. -/
def hasOwnProperty (o : DataObject) (k : String) : Option Bool :=
  if (ownKeys o).contains "hasOwnProperty" then none else some ((ownKeys o).contains k)

/-- The loop of the filter callback over the visited keys, with the current
value of `foundUnit`; `none` when `hasOwnProperty` throws. -/
def unitLoop (args : Args) (o : DataObject) : List String → Bool → Option Bool
  | [], foundUnit => some foundUnit
  | dataObj :: rest, foundUnit =>
    match hasOwnProperty o dataObj with
    | none => none
    | some false => unitLoop args o rest foundUnit
    | some true =>
      if true || (args.unit != .undefined &&
          args.unit == ((getProp o dataObj).map DataEntry.unit).getD .undefined) then
        unitLoop args o rest true
      else unitLoop args o rest foundUnit

/-- The callback of `res.things.filter` in `nextPageUntilAmount`: `foundUnit`
starts false and the loop over the keys of `thing.data` sets it, for an own
key, when `true || (args.unit !== undefined) && (args.unit === entry.unit)`.
The result is `none` when the callback throws. -/
def matchesUnit (args : Args) (thing : ParsedData) : Option Bool :=
  unitLoop args thing.data (enumeratedKeys thing.data) false

/-- The call `res.things.filter(callback)`: the kept things in order, or
`none` when the callback throws on one of them. -/
def filterThings (args : Args) : List ParsedData → Option (List ParsedData)
  | [] => some []
  | thing :: rest =>
    match matchesUnit args thing with
    | none => none
    | some keep =>
      match filterThings args rest with
      | none => none
      | some kept => some (if keep then thing :: kept else kept)

/-- Whether the filter callback returns true on a thing. -/
def accepted (args : Args) (thing : ParsedData) : Bool :=
  matchesUnit args thing == some true

/-- The first statement of `nextPageUntilAmount`: an absent
`args.fullThingsArray` becomes the empty array. -/
def restoreArray (args : Args) : Args :=
  { args with fullThingsArray := some (args.fullThingsArray.getD []) }

/-- The three assignments of `nextPageUntilAmount` after its checks:
`currentQuery = args.query`, `bounds = args.bounds` and `limit = 1`. -/
def saveParameters (args : Args) (w : World) : World :=
  { w with
    client :=
      { w.client with
        currentQuery := args.query
        bounds := args.bounds
        limit := .num "1" } }

/-- The method `client.nextPageUntilAmount(args)`; `args = none` is the call
with `undefined`, which throws on reading `args.fullThingsArray`. One unit of
fuel is spent per entry into the method, and `none` means the fuel ran out.
The result carries the argument object as the call leaves it, since the
method writes `args.fullThingsArray`. Where the amount is compared it is
defined, as the first check has passed. An exception thrown by the filter
inside the `then` callback rejects the promise with that error, the session
being as `next()` left it. -/
def nextPageUntilAmount (net : Net) :
    Nat → Option Args → World → Option (Outcome × World × Option Args)
  | 0, _, _ => none
  | _ + 1, none, w => some (.threw "TypeError", w, none)
  | fuel + 1, some args0, w =>
    let args : Args := restoreArray args0
    if args.amount = none then
      some (.rejected (.message "No arguments were given"), w, some args)
    else if args.query = .undefined ∧ w.client.currentQuery = .undefined then
      some (.rejected (.message "No search query was defined"), w, some args)
    else if args.bounds = .undefined ∧ w.client.bounds = .undefined then
      some (.rejected (.message "No search bounds were defined"), w, some args)
    else
      match next net (saveParameters args w) with
      | (.resolved, w2) =>
        match filterThings args w2.client.things with
        | none => some (.rejected (.thrown "TypeError"), w2, some args)
        | some filteredArray =>
          let acc := args.fullThingsArray.getD [] ++ filteredArray
          let args2 : Args := { args with fullThingsArray := some acc }
          if args.amount.getD 0 ≤ (acc.length : Int) ∨ w2.client.nextPage = .null then
            some (.resolved, { w2 with client := { w2.client with things := acc } }, some args2)
          else
            nextPageUntilAmount net fuel (some args2) w2
      | (.rejected reason, w2) => some (.rejected reason, w2, some args)
      | (.threw error, w2) => some (.rejected (.thrown error), w2, some args)

/-- The accumulated list in the words of the specification: the initial
items followed by the matching items of each fetched page, in fetch order. -/
def accumulate (args : Args) (initial : List ParsedData) (pages : List Body) :
    List ParsedData :=
  pages.foldl (fun acc body => acc ++ (body.data.map Thing).filter (accepted args)) initial

/-- The behaviour the specification gives for `configureAndRun` on valid
input, in its own words: store query and bounds into the session, then
invoke `run` (here `execute` without a cursor). -/
def storeThenRun (net : Net) (queryString : String) (bounds : Bounds) (w : World) :
    Outcome × World :=
  execute net .undefined
    { w with
      client :=
        { w.client with currentQuery := .str queryString, bounds := .object bounds } }

/-! ## Sample inputs -/

/-- The geobounds of the unit tests. -/
def sampleBounds : Bounds :=
  { minLat := .num "51.15", maxLat := .num "51.3", minLon := .num "0.1", maxLon := .num "0.3" }

/-- A channel with the given id and unit. -/
def sampleChannel (id : String) (value unit : JSVal) : RawChannel :=
  { id := .str id, value := value, unit := unit, recorded_at := .str "t" }

/-- A raw record with the given id and channels. -/
def sampleRaw (id : Nat) (channels : List RawChannel) : RawData :=
  { id := .num (toString id)
    attributes :=
      { title := .str "a thing"
        description := .undefined
        datasource := .undefined
        created_at := .undefined
        updated_at := .undefined
        indexed_at := .undefined
        longitude := .num "0.2"
        latitude := .num "51.2"
        distance := .undefined
        channels := channels }
    relationships := .obj "rel" }

/-- A world with a fresh client and no request made. -/
def freshWorld : World :=
  { client := createClient, requests := [] }

/-- A server of five pages of one thing each: the n-th request is answered
with page n, whose next link is absent on the last page. -/
def pagedNet : Net := fun n _ =>
  .response 200
    { links :=
        { self := .str (if n = 0 then "page0" else "pageN")
          next := if n < 4 then .str "cursor" else .undefined }
      data := [sampleRaw n [sampleChannel "c1" (.num "5") (.str "%")]] }

/-- A server whose single page has no thing and no next link. -/
def emptyNet : Net := fun _ _ =>
  .response 200 { links := { self := .str "page0", next := .undefined }, data := [] }

/-- The arguments of the unit test of `nextPageUntilAmount`. -/
def sampleArgs : Args :=
  { amount := some 3
    query := .str "humidity"
    bounds := .object sampleBounds
    unit := .str "%"
    fullThingsArray := none }

/-- A fresh client configured by hand with a query and the sample bounds. -/
def configuredWorld : World :=
  { client := { createClient with currentQuery := .str "temperature", bounds := .object sampleBounds }
    requests := [] }

/-- A response body whose next link is present but is the empty string. -/
def blankNextBody : Body :=
  { links := { self := .str "page0", next := .str "" }
    data := [sampleRaw 1 [sampleChannel "c1" (.num "5") (.str "%")]] }

/-- A server that answers every request with `blankNextBody`. -/
def blankNextNet : Net := fun _ _ => .response 200 blankNextBody

/-- The session after `query` has fetched the only page of `emptyNet`: it is
configured and its `nextPage` is `null`. -/
def exhaustedWorld : World :=
  (query emptyNet (.str "temperature") (.object sampleBounds) freshWorld).2

/-- A configured session that sits on `page0` with a next cursor. -/
def cursorWorld : World :=
  { client :=
      { configuredWorld.client with currentPage := .str "page0", nextPage := .str "cursor" }
    requests := [] }

/-- A server whose single page holds one thing that has no channel. -/
def bareNet : Net := fun _ _ =>
  .response 200
    { links := { self := .str "page0", next := .undefined }
      data := [sampleRaw 1 []] }

/-- A raw record with two channels that carry the same id. -/
def twinRaw : RawData :=
  sampleRaw 1 [sampleChannel "c1" (.num "5") (.str "%"), sampleChannel "c1" (.num "7") (.str "C")]

/-- The result of the unit test of `nextPageUntilAmount` against `pagedNet`,
run on a fresh client with fuel for five entries. -/
def sampleRun : Outcome × World × Option Args :=
  (nextPageUntilAmount pagedNet 5 (some sampleArgs) freshWorld).getD
    (.threw "out of fuel", freshWorld, none)

/-- The session of `exhaustedWorld` after its bounds have been cleared by
assigning the writable field. -/
def unboundedWorld : World :=
  { exhaustedWorld with client := { exhaustedWorld.client with bounds := .undefined } }

/-- Arguments that carry an amount and bounds but no query. -/
def boundsOnlyArgs : Args :=
  { sampleArgs with query := .undefined }

/-- The five strings the client rejects with when a check on its own state or
arguments fails. -/
def validationMessages : List String :=
  ["No query was defined", "Invalid geobounds parameter", "No arguments were given",
    "No search query was defined", "No search bounds were defined"]

/-- Geobounds whose four fields are present but are strings, not numbers. -/
def textBounds : Bounds :=
  { minLat := .str "south", maxLat := .str "north", minLon := .str "west", maxLon := .str "east" }

/-- A transport that fails every request with a timeout error. -/
def downNet : Net := fun _ _ => .error "ETIMEDOUT"

/-- A server that answers every request with status 204 and an empty page. -/
def noContentNet : Net := fun _ _ =>
  .response 204 { links := { self := .undefined, next := .undefined }, data := [] }

/-- A server as a function from the requested URL to the body it answers
with status 200, turned into a transport. -/
def serverNet (server : JSVal → Body) : Net := fun _ url => .response 200 (server url)

/-- The chain of pages that starts at `url` and follows the next links
reaches, within `n` pages, a page without a next link (one whose `links.next`
is absent or falsy, so that the client stores `null`). -/
def endsWithin (server : JSVal → Body) : Nat → JSVal → Bool
  | 0, _ => false
  | n + 1, url =>
    (server url).links.next.orElse .null == .null ||
      endsWithin server n ((server url).links.next.orElse .null)

/-- The first URL a call of `nextPageUntilAmount` requests: the cursor of the
session when it holds one, and otherwise the fresh URL built from the
arguments and the limit 1. -/
def firstUrl (args : Args) (w : World) : JSVal :=
  if w.client.nextPage ≠ .null ∧ w.client.nextPage ≠ .undefined then w.client.nextPage
  else
    match args.bounds with
    | .object b => .str (freshUrl b (.num "1") args.query)
    | _ => .undefined

/-- A server of three pages linked by their next links; any other URL gets
the last page. -/
def threePages : JSVal → Body := fun url =>
  { links :=
      { self := url
        next :=
          if url = .str "p2" then .str "p3"
          else if url = .str "p3" then .undefined
          else .str "p2" }
    data := [sampleRaw 1 [sampleChannel "c1" (.num "5") (.str "%")]] }

/-- A server whose single page holds one thing and has no next link. -/
def lastPageNet : Net := fun _ _ =>
  .response 200
    { links := { self := .str "page0", next := .undefined }
      data := [sampleRaw 1 [sampleChannel "c1" (.num "5") (.str "%")]] }

/-- The session after `query` has fetched the only page of `lastPageNet`. -/
def lastPageWorld : World :=
  (query lastPageNet (.str "temperature") (.object sampleBounds) freshWorld).2

/-- A raw record whose only channel has the id `__proto__`. -/
def protoRaw : RawData :=
  sampleRaw 1 [sampleChannel "__proto__" (.num "5") (.str "%")]

/-- A raw record with a channel whose id is `hasOwnProperty`. -/
def shadowRaw : RawData :=
  sampleRaw 1 [sampleChannel "hasOwnProperty" (.num "5") (.str "%")]

/-- A server of pages that each hold one thing with a channel whose id is
`hasOwnProperty`, and a next link. -/
def shadowPages : JSVal → Body := fun url =>
  { links := { self := url, next := .str "more" }
    data := [shadowRaw] }

/-- Along the chain of pages that starts at `url`, for up to `n` pages and
until a page without a next link, no item has a channel whose id is
`hasOwnProperty`. -/
def chainSafe (server : JSVal → Body) : Nat → JSVal → Bool
  | 0, _ => true
  | n + 1, url =>
    decide (∀ raw ∈ (server url).data, ∀ c ∈ raw.attributes.channels,
        c.id.toStr ≠ "hasOwnProperty") &&
      ((server url).links.next.orElse .null == .null ||
        chainSafe server n ((server url).links.next.orElse .null))

/-- A server with a single page, without a next link, whose thing has a
channel with the id `hasOwnProperty`. -/
def shadowLastPage : JSVal → Body := fun url =>
  { links := { self := url, next := .undefined }
    data := [shadowRaw] }

/-! ## Basic facts about the operations -/

theorem fieldMissing_false (b : Bounds) :
    fieldMissing b = false ↔
      b.minLat ≠ .undefined ∧ b.maxLat ≠ .undefined ∧
        b.minLon ≠ .undefined ∧ b.maxLon ≠ .undefined := by
  simp [fieldMissing, and_assoc]

theorem fieldMissing_true (b : Bounds)
    (h : b.minLat = .undefined ∨ b.maxLat = .undefined ∨
      b.minLon = .undefined ∨ b.maxLon = .undefined) :
    fieldMissing b = true := by
  by_contra hc
  have hc2 : fieldMissing b = false := by simpa using hc
  have := (fieldMissing_false b).1 hc2
  rcases h with h | h | h | h
  · exact this.1 h
  · exact this.2.1 h
  · exact this.2.2.1 h
  · exact this.2.2.2 h

theorem typeof_string_iff (q : JSVal) : q.typeof = "string" ↔ ∃ s, q = .str s := by
  cases q <;> simp [JSVal.typeof]

theorem request_requests (net : Net) (url : JSVal) (w : World) :
    (request net url w).2.requests = w.requests ++ [url] := by
  unfold request
  split
  · rfl
  · split <;> rfl

/-- On the path that builds the URL, `execute` validates and then requests
the fresh URL. -/
theorem execute_fresh (net : Net) (arg : JSVal) (w : World)
    (h : ¬ (arg = .bool true ∧ w.client.currentPage ≠ .null ∧
      w.client.currentPage ≠ .undefined)) :
    execute net arg w =
      if w.client.currentQuery = .undefined then
        (.rejected (.message "No query was defined"), w)
      else
        match w.client.bounds with
        | .undefined => (.rejected (.message "Invalid geobounds parameter"), w)
        | .null => (.rejected (.thrown "TypeError"), w)
        | .object b =>
          if fieldMissing b then
            (.rejected (.message "Invalid geobounds parameter"), w)
          else
            request net (.str (freshUrl b w.client.limit w.client.currentQuery)) w := by
  unfold execute
  by_cases ha : arg = .bool true
  · subst ha
    simp only [JSVal.orElse, JSVal.truthy, if_true, true_and, Bool.not_true] at h ⊢
    by_cases h1 : w.client.currentPage = .null
    · simp [h1]
    · have h2 : w.client.currentPage = .undefined := by
        by_contra h2
        exact h ⟨h1, h2⟩
      simp [h2]
  · have hne : arg.orElse (.bool false) ≠ .bool true := by
      unfold JSVal.orElse
      split
      · exact ha
      · simp
    simp [hne]

/-- On the cursor path `execute` requests the current page without any
validation. -/
theorem execute_cursor (net : Net) (w : World)
    (h1 : w.client.currentPage ≠ .null) (h2 : w.client.currentPage ≠ .undefined) :
    execute net (.bool true) w = request net w.client.currentPage w := by
  unfold execute
  simp [JSVal.orElse, JSVal.truthy, h1, h2]

/-- On a session that holds a cursor, `next()` is the request for it. -/
theorem next_cursor (net : Net) (w : World)
    (h1 : w.client.nextPage ≠ .null) (h2 : w.client.nextPage ≠ .undefined) :
    next net w =
      request net w.client.nextPage
        { w with client := { w.client with currentPage := w.client.nextPage } } := by
  unfold next
  exact execute_cursor net _ h1 h2

/-- The fresh path of `execute` on a session with a query and complete
bounds is the request for the fresh URL. -/
theorem execute_fresh_valid (net : Net) (arg : JSVal) (w : World) (b : Bounds)
    (h : ¬ (arg = .bool true ∧ w.client.currentPage ≠ .null ∧
      w.client.currentPage ≠ .undefined))
    (hq : w.client.currentQuery ≠ .undefined) (hb : w.client.bounds = .object b)
    (hm : fieldMissing b = false) :
    execute net arg w =
      request net (.str (freshUrl b w.client.limit w.client.currentQuery)) w := by
  rw [execute_fresh net arg w h, if_neg hq, hb]
  simp [hm]

/-! ## Validation and refinement of `query` -/

/-- C3: `query(q, b)` rejects with the message for a missing query when `q`
is `undefined` or not a string, and otherwise with the message for invalid
geobounds when `b` is `undefined` or lacks one of its four fields; in both
cases the world is returned as it was, so no request is logged and no field
of the client has changed. -/
theorem query_rejects_malformed (net : Net) (q : JSVal) (b : BoundsVal) (w : World) :
    ((q = .undefined ∨ ∀ s, q ≠ .str s) →
      query net q b w = (.rejected (.message "No query was defined"), w)) ∧
    ((∃ s, q = .str s) →
      (b = .undefined ∨ ∃ bb, b = .object bb ∧
        (bb.minLat = .undefined ∨ bb.maxLat = .undefined ∨
          bb.minLon = .undefined ∨ bb.maxLon = .undefined)) →
      query net q b w = (.rejected (.message "Invalid geobounds parameter"), w)) := by
  constructor
  · intro h
    have hq : q = .undefined ∨ q.typeof ≠ "string" := by
      rcases h with h | h
      · exact Or.inl h
      · right
        intro ht
        obtain ⟨s, hs⟩ := (typeof_string_iff q).1 ht
        exact h s hs
    simp [query, hq]
  · rintro ⟨s, rfl⟩ hb
    rcases hb with rfl | ⟨bb, rfl, h⟩
    · simp [query, JSVal.typeof]
    · simp [query, JSVal.typeof, fieldMissing_true bb h]

theorem query_rejects_malformed_witness :
    query emptyNet (.num "5") (.object sampleBounds) freshWorld =
        (.rejected (.message "No query was defined"), freshWorld) ∧
      query emptyNet (.str "temperature")
          (.object { sampleBounds with minLon := .undefined, maxLon := .undefined }) freshWorld =
        (.rejected (.message "Invalid geobounds parameter"), freshWorld) :=
  ⟨(query_rejects_malformed emptyNet (.num "5") (.object sampleBounds) freshWorld).1
      (Or.inr (fun s h => by cases h)),
    (query_rejects_malformed emptyNet (.str "temperature")
        (.object { sampleBounds with minLon := .undefined, maxLon := .undefined }) freshWorld).2
      ⟨"temperature", rfl⟩ (Or.inr ⟨_, rfl, Or.inr (Or.inr (Or.inl rfl))⟩)⟩

/-- C4: for a string `q` and bounds `b` with all four fields defined,
`query(q, b)` is exactly store-then-run: it equals `execute()` without a
cursor on the session updated with `q` and `b`, which issues the single
request for the fresh URL built from `q`, `b` and the limit of the session;
so it settles the way that request does, and afterwards the session holds
`currentQuery = q` and `bounds = b`. -/
theorem query_refines_execute (net : Net) (q : String) (b : Bounds) (w : World)
    (hb : b.minLat ≠ .undefined ∧ b.maxLat ≠ .undefined ∧
      b.minLon ≠ .undefined ∧ b.maxLon ≠ .undefined) :
    query net (.str q) (.object b) w = storeThenRun net q b w ∧
    storeThenRun net q b w =
      request net (.str (freshUrl b w.client.limit (.str q)))
        { w with client := { w.client with currentQuery := .str q, bounds := .object b } } ∧
    (query net (.str q) (.object b) w).2.requests =
      w.requests ++ [.str (freshUrl b w.client.limit (.str q))] ∧
    (query net (.str q) (.object b) w).2.client.currentQuery = .str q ∧
    (query net (.str q) (.object b) w).2.client.bounds = .object b := by
  have hm : fieldMissing b = false := (fieldMissing_false b).2 hb
  have h1 : query net (.str q) (.object b) w = storeThenRun net q b w := by
    simp [query, storeThenRun, JSVal.typeof, hm]
  have h2 : storeThenRun net q b w =
      request net (.str (freshUrl b w.client.limit (.str q)))
        { w with client := { w.client with currentQuery := .str q, bounds := .object b } } := by
    unfold storeThenRun
    rw [execute_fresh net .undefined _ (by simp)]
    simp [hm]
  refine ⟨h1, h2, ?_, ?_, ?_⟩
  · rw [h1, h2, request_requests]
  · rw [h1, h2]
    unfold request
    split
    · rfl
    · split <;> rfl
  · rw [h1, h2]
    unfold request
    split
    · rfl
    · split <;> rfl

theorem query_refines_execute_witness :
    query emptyNet (.str "temperature") (.object sampleBounds) freshWorld =
      storeThenRun emptyNet "temperature" sampleBounds freshWorld ∧
    (query emptyNet (.str "temperature") (.object sampleBounds) freshWorld).2.client.currentQuery =
      .str "temperature" :=
  have h := query_refines_execute emptyNet "temperature" sampleBounds freshWorld
    ⟨by decide, by decide, by decide, by decide⟩
  ⟨h.1, h.2.2.2.1⟩

/-! ## The URL that `execute` requests -/

/-- C10: when `useCurrentPage` is `true` and `currentPage` is neither `null`
nor `undefined`, `execute` requests `currentPage` verbatim, whatever query,
bounds and limit are; in every other case, on a session that passes
validation, it requests the base endpoint followed by
`geobound-minlong`, `geobound-maxlong`, `geobound-minlat`, `geobound-maxlat`,
`limit` and `q` in that order, each value converted to a string the way
string concatenation does (a number by its JavaScript rendering) and a string
query inserted as it is; so the fresh URL is a function of query, bounds and
limit alone. -/
theorem execute_request_url (net : Net) (arg : JSVal) (w : World) :
    (arg = .bool true → w.client.currentPage ≠ .null →
      w.client.currentPage ≠ .undefined →
      (execute net arg w).2.requests = w.requests ++ [w.client.currentPage]) ∧
    (¬ (arg = .bool true ∧ w.client.currentPage ≠ .null ∧
        w.client.currentPage ≠ .undefined) →
      w.client.currentQuery ≠ .undefined →
      ∀ b, w.client.bounds = .object b →
        b.minLat ≠ .undefined ∧ b.maxLat ≠ .undefined ∧
          b.minLon ≠ .undefined ∧ b.maxLon ≠ .undefined →
        (execute net arg w).2.requests = w.requests ++
          [.str ("https://api.thingful.net/things?geobound-minlong=" ++ b.minLon.toStr ++
            "&geobound-maxlong=" ++ b.maxLon.toStr ++
            "&geobound-minlat=" ++ b.minLat.toStr ++
            "&geobound-maxlat=" ++ b.maxLat.toStr ++
            "&limit=" ++ w.client.limit.toStr ++
            "&q=" ++ w.client.currentQuery.toStr)] ∧
        (∀ s, w.client.currentQuery = .str s → w.client.currentQuery.toStr = s) ∧
        ∀ (net2 : Net) (arg2 : JSVal) (w2 : World),
          ¬ (arg2 = .bool true ∧ w2.client.currentPage ≠ .null ∧
            w2.client.currentPage ≠ .undefined) →
          w2.client.currentQuery = w.client.currentQuery →
          w2.client.bounds = w.client.bounds →
          w2.client.limit = w.client.limit →
          (execute net2 arg2 w2).2.requests.getLast? =
            (execute net arg w).2.requests.getLast?) := by
  constructor
  · intro ha h1 h2
    subst ha
    rw [execute_cursor net w h1 h2, request_requests]
  · intro hc hq b hb hdef
    have hm : fieldMissing b = false := (fieldMissing_false b).2 hdef
    have key : ∀ (net2 : Net) (arg2 : JSVal) (w2 : World),
        ¬ (arg2 = .bool true ∧ w2.client.currentPage ≠ .null ∧
          w2.client.currentPage ≠ .undefined) →
        w2.client.currentQuery = w.client.currentQuery →
        w2.client.bounds = w.client.bounds →
        w2.client.limit = w.client.limit →
        (execute net2 arg2 w2).2.requests = w2.requests ++
          [.str (freshUrl b w.client.limit w.client.currentQuery)] := by
      intro net2 arg2 w2 hc2 e1 e2 e3
      rw [execute_fresh net2 arg2 w2 hc2, e1, e2, e3, hb]
      simp only [hq, if_false, hm]
      exact request_requests _ _ _
    refine ⟨?_, ?_, ?_⟩
    · rw [key net arg w hc rfl rfl rfl]
      simp [freshUrl, String.append_assoc]
    · intro s hs
      rw [hs]
      rfl
    · intro net2 arg2 w2 hc2 e1 e2 e3
      rw [key net2 arg2 w2 hc2 e1 e2 e3, key net arg w hc rfl rfl rfl]
      simp

theorem execute_request_url_witness :
    (execute pagedNet (.bool true)
        { freshWorld with client := { createClient with currentPage := .str "cursor" } }).2.requests =
      [.str "cursor"] ∧
    (execute pagedNet .undefined configuredWorld).2.requests =
      [.str ("https://api.thingful.net/things?geobound-minlong=0.1&geobound-maxlong=0.3" ++
        "&geobound-minlat=51.15&geobound-maxlat=51.3&limit=10&q=temperature")] :=
  ⟨(execute_request_url pagedNet (.bool true)
      { freshWorld with client := { createClient with currentPage := .str "cursor" } }).1
      rfl (by decide) (by decide),
    ((execute_request_url pagedNet .undefined configuredWorld).2
      (by decide) (by decide) sampleBounds rfl
      ⟨by decide, by decide, by decide, by decide⟩).1.trans (by decide)⟩

/-! ## A successful fetch -/

/-- Every call of `execute` either fails validation or throws on `null`
bounds, leaving the world as it was, or is the request for one URL. -/
theorem execute_cases (net : Net) (arg : JSVal) (w : World) :
    execute net arg w = (.rejected (.message "No query was defined"), w) ∨
    execute net arg w = (.rejected (.message "Invalid geobounds parameter"), w) ∨
    execute net arg w = (.rejected (.thrown "TypeError"), w) ∨
    ∃ url, execute net arg w = request net url w := by
  by_cases h : arg = .bool true ∧ w.client.currentPage ≠ .null ∧
      w.client.currentPage ≠ .undefined
  · obtain ⟨rfl, h1, h2⟩ := h
    exact Or.inr (Or.inr (Or.inr ⟨_, execute_cursor net w h1 h2⟩))
  · rw [execute_fresh net arg w h]
    by_cases hq : w.client.currentQuery = .undefined
    · simp [hq]
    · cases hb : w.client.bounds with
      | undefined => simp [hq]
      | null => simp [hq]
      | object b =>
        by_cases hm : fieldMissing b = true
        · simp [hq, hm]
        · right; right; right
          exact ⟨.str (freshUrl b w.client.limit w.client.currentQuery), by simp [hq, hm]⟩

/-- A request resolves exactly when it is answered with status 200, and then
it stores the links and the mapped things. -/
theorem request_resolved (net : Net) (url : JSVal) (w w2 : World)
    (h : request net url w = (.resolved, w2)) :
    ∃ body, net w.requests.length url = .response 200 body ∧
      w2 = { client :=
              { w.client with
                currentPage := body.links.self
                nextPage := body.links.next.orElse .null
                things := body.data.map Thing }
             requests := w.requests ++ [url] } := by
  unfold request at h
  split at h
  · simp at h
  · rename_i statusCode body hnet
    split at h
    · simp at h
    · rename_i hs
      have hs2 : statusCode = 200 := by simpa using hs
      subst hs2
      refine ⟨body, hnet, ?_⟩
      simp only [Prod.mk.injEq, true_and] at h
      exact h.symm

theorem request_ok (net : Net) (url : JSVal) (w : World) (body : Body)
    (h : net w.requests.length url = .response 200 body) :
    request net url w =
      (.resolved,
        { client :=
            { w.client with
              currentPage := body.links.self
              nextPage := body.links.next.orElse .null
              things := body.data.map Thing }
          requests := w.requests ++ [url] }) := by
  unfold request
  rw [h]
  simp

/-- C2, the claim as stated fails: a 200 response whose `links.next` is
present but is the empty string makes `execute` resolve with
`nextPage = null`, not with `links.next`. -/
theorem execute_blank_next_counterexample :
    blankNextNet 0 (.str (freshUrl sampleBounds (.num "10") (.str "temperature"))) =
        .response 200 blankNextBody ∧
      (execute blankNextNet .undefined configuredWorld).1 = .resolved ∧
      blankNextBody.links.next ≠ .undefined ∧
      (execute blankNextNet .undefined configuredWorld).2.client.nextPage ≠
        blankNextBody.links.next := by
  refine ⟨rfl, by decide, by decide, by decide⟩

/-- C2, amended: a request answered with status 200 and a body with links and
data resolves (to the client itself) with `currentPage = links.self`, with
`nextPage = links.next` when that is present and truthy and `null` when it is
absent or falsy (such as the empty string), and with `things` the data
mapped through `Thing` in order, replacing the previous things (same length,
and empty for empty data), every other field kept; and `execute` resolves
only as such a request. -/
theorem execute_resolves_page (net : Net) (arg : JSVal) (w : World) :
    (∀ url body, net w.requests.length url = .response 200 body →
      (request net url w).1 = .resolved ∧
      (request net url w).2.client.currentPage = body.links.self ∧
      (body.links.next.truthy = true →
        (request net url w).2.client.nextPage = body.links.next) ∧
      (body.links.next = .undefined ∨ body.links.next.truthy = false →
        (request net url w).2.client.nextPage = .null) ∧
      (request net url w).2.client.things = body.data.map Thing ∧
      (request net url w).2.client.things.length = body.data.length ∧
      (body.data = [] → (request net url w).2.client.things = []) ∧
      (request net url w).2.client.currentQuery = w.client.currentQuery ∧
      (request net url w).2.client.bounds = w.client.bounds ∧
      (request net url w).2.client.limit = w.client.limit) ∧
    (∀ w2, execute net arg w = (.resolved, w2) →
      ∃ url body, net w.requests.length url = .response 200 body ∧
        execute net arg w = request net url w ∧
        w2.requests = w.requests ++ [url]) := by
  constructor
  · intro url body h
    rw [request_ok net url w body h]
    refine ⟨rfl, rfl, ?_, ?_, rfl, by simp, ?_, rfl, rfl, rfl⟩
    · intro ht
      simp [JSVal.orElse, ht]
    · intro ht
      rcases ht with ht | ht
      · simp [JSVal.orElse, ht, JSVal.truthy]
      · simp [JSVal.orElse, ht]
    · intro hd
      simp [hd]
  · intro w2 h
    rcases execute_cases net arg w with h1 | h1 | h1 | ⟨url, h1⟩
    · rw [h1] at h
      simp at h
    · rw [h1] at h
      simp at h
    · rw [h1] at h
      simp at h
    · rw [h1] at h
      obtain ⟨body, hb, hw⟩ := request_resolved net url w w2 h
      exact ⟨url, body, hb, h1, by rw [hw]⟩

theorem execute_resolves_page_witness :
    (request emptyNet (.str "page0") configuredWorld).1 = .resolved ∧
      (request emptyNet (.str "page0") configuredWorld).2.client.nextPage = .null ∧
      (request emptyNet (.str "page0") configuredWorld).2.client.things = [] :=
  have h := (execute_resolves_page emptyNet .undefined configuredWorld).1 (.str "page0")
    { links := { self := .str "page0", next := .undefined }, data := [] } rfl
  ⟨h.1, h.2.2.2.1 (Or.inl rfl), h.2.2.2.2.2.2.1 rfl⟩

/-! ## Advancing with `next` -/

/-- C5, the code at the failing input: `query` has fetched the only page of
the server, which has one thing and no next link, so the session has
`nextPage = null`; `next()` on it does not fail: it requests the fresh URL
of the query once more and resolves with the first page again, its one
thing included. -/
theorem next_after_last_page_refetches :
    lastPageWorld.client.nextPage = .null ∧
      (next lastPageNet lastPageWorld).1 = .resolved ∧
      (next lastPageNet lastPageWorld).2.client.things.length = 1 ∧
      (next lastPageNet lastPageWorld).2.client.things = lastPageWorld.client.things ∧
      (next lastPageNet lastPageWorld).2.requests =
        lastPageWorld.requests ++
          [.str (freshUrl sampleBounds (.num "10") (.str "temperature"))] := by
  refine ⟨by decide, by decide, by decide, by decide, by decide⟩

/-- C9, the claim as stated fails: the session sits on `page0` with next
cursor `cursor`; `next()` succeeds, and the server names the fetched page
`page0` in `links.self`, so afterwards `currentPage` is not the prior
`nextPage` and is equal to the `currentPage` before the call. -/
theorem next_self_link_counterexample :
    cursorWorld.client.nextPage = .str "cursor" ∧
      (next pagedNet cursorWorld).1 = .resolved ∧
      (next pagedNet cursorWorld).2.client.currentPage ≠ cursorWorld.client.nextPage ∧
      (next pagedNet cursorWorld).2.client.currentPage = cursorWorld.client.currentPage := by
  refine ⟨rfl, by decide, by decide, by decide⟩

/-- C9, amended: on a session whose `nextPage` is a cursor `u` (neither
`null` nor `undefined`), `next()` sets `currentPage` to `u` and requests `u`
verbatim; when it succeeds, `currentPage` is the `links.self` of the
response, so it equals `u` exactly when the server reports `u` as the self
link, and in that case it differs from the `currentPage` before the call
exactly when that one was not `u`. -/
theorem next_follows_cursor (net : Net) (w : World)
    (h1 : w.client.nextPage ≠ .null) (h2 : w.client.nextPage ≠ .undefined) :
    next net w =
      request net w.client.nextPage
        { w with client := { w.client with currentPage := w.client.nextPage } } ∧
    (next net w).2.requests = w.requests ++ [w.client.nextPage] ∧
    ∀ w2, next net w = (.resolved, w2) →
      ∃ body, net w.requests.length w.client.nextPage = .response 200 body ∧
        w2.client.currentPage = body.links.self ∧
        (w2.client.currentPage = w.client.nextPage ↔ body.links.self = w.client.nextPage) ∧
        (body.links.self = w.client.nextPage →
          (w2.client.currentPage ≠ w.client.currentPage ↔
            w.client.currentPage ≠ w.client.nextPage)) := by
  have hn := next_cursor net w h1 h2
  refine ⟨hn, ?_, ?_⟩
  · rw [hn, request_requests]
  · intro w2 hw
    rw [hn] at hw
    obtain ⟨body, hb, rfl⟩ := request_resolved net _ _ w2 hw
    refine ⟨body, hb, rfl, ?_, ?_⟩
    · exact Iff.rfl
    · intro hs
      show body.links.self ≠ w.client.currentPage ↔ _
      rw [hs]
      exact ⟨fun h e => h e.symm, fun h e => h e.symm⟩

theorem next_follows_cursor_witness :
    (next pagedNet cursorWorld).2.requests = cursorWorld.requests ++ [.str "cursor"] :=
  (next_follows_cursor pagedNet cursorWorld (by decide) (by decide)).2.1

/-! ## The matching predicate of `nextPageUntilAmount` -/

theorem mem_setOwn (own : List (String × DataEntry)) (k k2 : String) (v : DataEntry) :
    k2 ∈ (setOwn own k v).map Prod.fst ↔ k2 = k ∨ k2 ∈ own.map Prod.fst := by
  induction own with
  | nil => simp [setOwn]
  | cons e rest ih =>
    obtain ⟨k0, v0⟩ := e
    unfold setOwn
    split
    · rename_i hk
      subst hk
      simp
    · simp only [List.map_cons, List.mem_cons, ih]
      tauto

theorem mem_ownKeys_setProp (o : DataObject) (k k2 : String) (v : DataEntry) :
    k2 ∈ ownKeys (setProp o k v) ↔ (k ≠ "__proto__" ∧ k2 = k) ∨ k2 ∈ ownKeys o := by
  unfold setProp ownKeys
  split
  · rename_i hk
    simp [hk]
  · rename_i hk
    simp only [mem_setOwn]
    tauto

/-- The own keys of the `data` object built from a list of channels: the keys
already there and every channel id other than `__proto__`. -/
theorem mem_ownKeys_foldl (l : List RawChannel) (o : DataObject) (k : String) :
    k ∈ ownKeys (l.foldl (fun data dataPreview =>
        setProp data dataPreview.id.toStr (channelEntry dataPreview)) o) ↔
      k ∈ ownKeys o ∨ (k ≠ "__proto__" ∧ ∃ c ∈ l, c.id.toStr = k) := by
  induction l generalizing o with
  | nil => simp
  | cons c rest ih =>
    rw [List.foldl_cons, ih, mem_ownKeys_setProp]
    constructor
    · rintro ((⟨h1, h2⟩ | h) | ⟨h1, d, hd, h2⟩)
      · exact Or.inr ⟨by rw [h2]; exact h1, c, List.mem_cons_self _ _, h2.symm⟩
      · exact Or.inl h
      · exact Or.inr ⟨h1, d, List.mem_cons_of_mem _ hd, h2⟩
    · rintro (h | ⟨h1, d, hd, h2⟩)
      · exact Or.inl (Or.inr h)
      · rcases List.mem_cons.1 hd with rfl | hd
        · exact Or.inl (Or.inl ⟨by rw [h2]; exact h1, h2.symm⟩)
        · exact Or.inr ⟨h1, d, hd, h2⟩

theorem mem_ownKeys_Thing (rawData : RawData) (k : String) :
    k ∈ ownKeys (Thing rawData).data ↔
      k ≠ "__proto__" ∧ ∃ c ∈ rawData.attributes.channels, c.id.toStr = k := by
  have h := mem_ownKeys_foldl rawData.attributes.channels { own := [], proto := none } k
  simp only [ownKeys, List.map_nil, List.not_mem_nil, false_or] at h
  exact h

/-- When no own key shadows `hasOwnProperty`, the loop ends with `foundUnit`
set exactly if it was set before or one of the visited keys is an own key. -/
theorem unitLoop_safe (args : Args) (o : DataObject)
    (hs : "hasOwnProperty" ∉ ownKeys o) (keys : List String) (foundUnit : Bool) :
    unitLoop args o keys foundUnit =
      some (foundUnit || keys.any (fun k => (ownKeys o).contains k)) := by
  induction keys generalizing foundUnit with
  | nil => simp [unitLoop]
  | cons k rest ih =>
    have hh : hasOwnProperty o k = some ((ownKeys o).contains k) := by
      unfold hasOwnProperty
      simp [hs]
    unfold unitLoop
    rw [hh]
    cases hc : (ownKeys o).contains k with
    | false =>
      have hk : k ∉ ownKeys o := by simpa using hc
      simp [ih, hk]
    | true =>
      have hk : k ∈ ownKeys o := by simpa using hc
      simp [ih, hk]

/-- When an own key shadows `hasOwnProperty`, the first visit of the loop
throws. -/
theorem unitLoop_shadowed (args : Args) (o : DataObject)
    (hs : "hasOwnProperty" ∈ ownKeys o) (k : String) (rest : List String)
    (foundUnit : Bool) :
    unitLoop args o (k :: rest) foundUnit = none := by
  have hh : hasOwnProperty o k = none := by
    unfold hasOwnProperty
    simp [hs]
  unfold unitLoop
  rw [hh]

/-- The filter callback throws exactly on a thing whose `data` has an own key
`hasOwnProperty`. -/
theorem matchesUnit_throws_iff (args : Args) (thing : ParsedData) :
    matchesUnit args thing = none ↔ "hasOwnProperty" ∈ ownKeys thing.data := by
  unfold matchesUnit
  constructor
  · intro h
    by_contra hs
    rw [unitLoop_safe args _ hs] at h
    simp at h
  · intro hs
    have hne : ∃ k rest, enumeratedKeys thing.data = k :: rest := by
      unfold enumeratedKeys
      cases hk : ownKeys thing.data with
      | nil => rw [hk] at hs; simp at hs
      | cons k rest => exact ⟨k, _, rfl⟩
    obtain ⟨k, rest, hk⟩ := hne
    rw [hk]
    exact unitLoop_shadowed args _ hs k rest false

/-- When the callback does not throw it returns whether the thing has an own
data entry, whatever the unit is. -/
theorem matchesUnit_safe (args : Args) (thing : ParsedData)
    (hs : "hasOwnProperty" ∉ ownKeys thing.data) :
    matchesUnit args thing = some (decide (thing.data.own ≠ [])) := by
  unfold matchesUnit
  rw [unitLoop_safe args _ hs]
  congr 1
  simp only [Bool.false_or]
  unfold enumeratedKeys
  cases ho : thing.data.own with
  | nil =>
    cases thing.data.proto <;> simp [ownKeys, ho]
  | cons e rest =>
    simp [ownKeys, ho]

/-- The callback does not depend on the arguments. -/
theorem matchesUnit_congr (args args2 : Args) (thing : ParsedData) :
    matchesUnit args thing = matchesUnit args2 thing := by
  by_cases hs : "hasOwnProperty" ∈ ownKeys thing.data
  · rw [(matchesUnit_throws_iff args thing).2 hs, (matchesUnit_throws_iff args2 thing).2 hs]
  · rw [matchesUnit_safe args thing hs, matchesUnit_safe args2 thing hs]

theorem accepted_congr (args args2 : Args) : accepted args = accepted args2 := by
  funext thing
  unfold accepted
  rw [matchesUnit_congr args args2 thing]

theorem filterThings_congr (args args2 : Args) (things : List ParsedData) :
    filterThings args things = filterThings args2 things := by
  induction things with
  | nil => rfl
  | cons t rest ih =>
    unfold filterThings
    rw [matchesUnit_congr args args2 t, ih]

theorem filterThings_eq_filter (args : Args) (things kept : List ParsedData)
    (h : filterThings args things = some kept) :
    kept = things.filter (accepted args) := by
  induction things generalizing kept with
  | nil =>
    simp only [filterThings, Option.some.injEq] at h
    simp [← h]
  | cons t rest ih =>
    unfold filterThings at h
    cases hm : matchesUnit args t with
    | none => simp [hm] at h
    | some keep =>
      cases hr : filterThings args rest with
      | none => simp [hm, hr] at h
      | some kept2 =>
        simp only [hm, hr, Option.some.injEq] at h
        have hk := ih kept2 hr
        cases keep with
        | true =>
          simp only [if_true] at h
          simp [← h, hk, accepted, hm, List.filter_cons]
        | false =>
          simp only [Bool.false_eq_true, if_false] at h
          simp [← h, hk, accepted, hm, List.filter_cons]

theorem filterThings_of_safe (args : Args) (things : List ParsedData)
    (h : ∀ t ∈ things, matchesUnit args t ≠ none) :
    filterThings args things = some (things.filter (accepted args)) := by
  induction things with
  | nil => simp [filterThings]
  | cons t rest ih =>
    have ht := h t (List.mem_cons_self _ _)
    have hr := ih (fun u hu => h u (List.mem_cons_of_mem _ hu))
    unfold filterThings
    cases hm : matchesUnit args t with
    | none => exact absurd hm ht
    | some keep =>
      rw [hr]
      cases keep <;> simp [accepted, hm, List.filter_cons]

theorem filterThings_throws (args : Args) (things : List ParsedData) (t : ParsedData)
    (ht : t ∈ things) (hm : matchesUnit args t = none) :
    filterThings args things = none := by
  cases hf : filterThings args things with
  | none => rfl
  | some kept =>
    exfalso
    induction things generalizing kept with
    | nil => simp at ht
    | cons u rest ih =>
      unfold filterThings at hf
      cases hu : matchesUnit args u with
      | none => simp [hu] at hf
      | some keep =>
        cases hr : filterThings args rest with
        | none => simp [hu, hr] at hf
        | some kept2 =>
          rcases List.mem_cons.1 ht with rfl | ht2
          · rw [hm] at hu
            simp at hu
          · exact ih ht2 kept2 hr

/-- C7, the claim as stated fails: a thing without any channel has an empty
`data` object, the loop of the predicate never runs and the thing is
rejected, and so is a thing whose only channel has the id `__proto__`, which
gives no own entry; the page of `bareNet` holds one thing without a channel
and the accumulated list stays empty. -/
theorem matchesUnit_bare_counterexample :
    matchesUnit sampleArgs (Thing (sampleRaw 1 [])) = some false ∧
      matchesUnit sampleArgs (Thing protoRaw) = some false ∧
      (nextPageUntilAmount bareNet 1 (some sampleArgs) freshWorld).map
          (fun r => (r.1, r.2.1.client.things.length, r.2.1.requests.length)) =
        some (.resolved, 0, 1) := by
  refine ⟨by decide, by decide, by decide⟩

/-- C7, amended: the predicate does not depend on `args.unit`. On an item
none of whose channel ids is `hasOwnProperty` it returns true exactly when the
`data` object has at least one own entry, that is when the raw record has a
channel whose id is not `__proto__`, and false otherwise; so a page all of
whose items are such and have such a channel passes the filter whole and adds
its full length to the accumulated list. -/
theorem matchesUnit_ignores_unit (args : Args) :
    (∀ (args2 : Args) (thing : ParsedData),
      matchesUnit args thing = matchesUnit args2 thing) ∧
    (∀ thing : ParsedData, "hasOwnProperty" ∉ ownKeys thing.data →
      (matchesUnit args thing = some true ↔ thing.data.own ≠ []) ∧
      (matchesUnit args thing = some false ↔ thing.data.own = [])) ∧
    (∀ rawData : RawData,
      (∀ c ∈ rawData.attributes.channels, c.id.toStr ≠ "hasOwnProperty") →
      (matchesUnit args (Thing rawData) = some true ↔
        ∃ c ∈ rawData.attributes.channels, c.id.toStr ≠ "__proto__") ∧
      (matchesUnit args (Thing rawData) = some false ↔
        ∀ c ∈ rawData.attributes.channels, c.id.toStr = "__proto__")) ∧
    (∀ (full : List ParsedData) (page : List RawData),
      (∀ r ∈ page, (∀ c ∈ r.attributes.channels, c.id.toStr ≠ "hasOwnProperty") ∧
        ∃ c ∈ r.attributes.channels, c.id.toStr ≠ "__proto__") →
      filterThings args (page.map Thing) = some (page.map Thing) ∧
      (full ++ (page.map Thing).filter (accepted args)).length =
        full.length + page.length) := by
  have hsafe : ∀ rawData : RawData,
      (∀ c ∈ rawData.attributes.channels, c.id.toStr ≠ "hasOwnProperty") →
      "hasOwnProperty" ∉ ownKeys (Thing rawData).data := by
    intro rawData hc hmem
    obtain ⟨_, c, hcm, hk⟩ := (mem_ownKeys_Thing rawData _).1 hmem
    exact hc c hcm hk
  have hown : ∀ rawData : RawData,
      (Thing rawData).data.own ≠ [] ↔
        ∃ c ∈ rawData.attributes.channels, c.id.toStr ≠ "__proto__" := by
    intro rawData
    constructor
    · intro hne
      cases ho : (Thing rawData).data.own with
      | nil => exact absurd ho hne
      | cons e rest =>
        have hmem : e.1 ∈ ownKeys (Thing rawData).data := by
          simp [ownKeys, ho]
        obtain ⟨h1, c, hcm, hk⟩ := (mem_ownKeys_Thing rawData _).1 hmem
        exact ⟨c, hcm, by rw [hk]; exact h1⟩
    · rintro ⟨c, hcm, hk⟩ hnil
      have hmem : c.id.toStr ∈ ownKeys (Thing rawData).data :=
        (mem_ownKeys_Thing rawData _).2 ⟨hk, c, hcm, rfl⟩
      simp [ownKeys, hnil] at hmem
  refine ⟨?_, ?_, ?_, ?_⟩
  · intro args2 thing
    exact matchesUnit_congr args args2 thing
  · intro thing hs
    rw [matchesUnit_safe args thing hs]
    constructor
    · simp
    · simp
  · intro rawData hc
    rw [matchesUnit_safe args _ (hsafe rawData hc)]
    constructor
    · simp only [Option.some.injEq, decide_eq_true_eq]
      exact hown rawData
    · simp only [Option.some.injEq, decide_eq_false_iff_not, not_not]
      rw [← not_iff_not, ← ne_eq, hown rawData]
      push_neg
      rfl
  · intro full page hp
    have hacc : ∀ t ∈ page.map Thing, accepted args t = true := by
      intro t ht
      obtain ⟨r, hr, rfl⟩ := List.mem_map.1 ht
      unfold accepted
      rw [matchesUnit_safe args _ (hsafe r (hp r hr).1)]
      simp only [beq_iff_eq, Option.some.injEq, decide_eq_true_eq]
      exact (hown r).2 (hp r hr).2
    have hfil : (page.map Thing).filter (accepted args) = page.map Thing :=
      List.filter_eq_self.2 hacc
    have hno : ∀ t ∈ page.map Thing, matchesUnit args t ≠ none := by
      intro t ht hnone
      have := hacc t ht
      unfold accepted at this
      rw [hnone] at this
      simp at this
    refine ⟨?_, ?_⟩
    · rw [filterThings_of_safe args _ hno, hfil]
    · rw [hfil]
      simp

theorem matchesUnit_ignores_unit_witness :
    filterThings { sampleArgs with unit := .str "C" }
        ([sampleRaw 1 [sampleChannel "c1" (.num "5") (.str "%")]].map Thing) =
      some ([sampleRaw 1 [sampleChannel "c1" (.num "5") (.str "%")]].map Thing) :=
  ((matchesUnit_ignores_unit { sampleArgs with unit := .str "C" }).2.2.2 []
    [sampleRaw 1 [sampleChannel "c1" (.num "5") (.str "%")]]
    (by
      intro r hr
      rw [List.mem_singleton.1 hr]
      exact ⟨by decide, sampleChannel "c1" (.num "5") (.str "%"), by decide, by decide⟩)).1

/-! ## The result mapper `Thing` -/

theorem getOwn_setOwn_same (own : List (String × DataEntry)) (k : String) (v : DataEntry) :
    getOwn (setOwn own k v) k = some v := by
  induction own with
  | nil => simp [setOwn, getOwn]
  | cons e rest ih =>
    obtain ⟨k0, v0⟩ := e
    unfold setOwn
    split
    · rename_i hk
      simp [getOwn, hk]
    · rename_i hk
      simp [getOwn, hk, ih]

theorem getOwn_setOwn_other (own : List (String × DataEntry)) (k k2 : String) (v : DataEntry)
    (h : k ≠ k2) :
    getOwn (setOwn own k v) k2 = getOwn own k2 := by
  induction own with
  | nil => simp [setOwn, getOwn, h]
  | cons e rest ih =>
    obtain ⟨k0, v0⟩ := e
    unfold setOwn
    split
    · rename_i hk
      subst hk
      simp [getOwn, h]
    · by_cases hk2 : k0 = k2
      · simp [getOwn, hk2]
      · simp [getOwn, hk2, ih]

theorem getProp_setProp_same (o : DataObject) (k : String) (v : DataEntry) :
    getProp (setProp o k v) k = some v := by
  unfold getProp setProp
  by_cases hk : k = "__proto__"
  · simp [hk]
  · simp [hk, getOwn_setOwn_same]

theorem getProp_setProp_other (o : DataObject) (k k2 : String) (v : DataEntry)
    (h : k ≠ k2) :
    getProp (setProp o k v) k2 = getProp o k2 := by
  unfold getProp setProp
  by_cases hk : k = "__proto__"
  · subst hk
    have h2 : ¬ k2 = "__proto__" := fun e => h e.symm
    simp [h2]
  · by_cases hk2 : k2 = "__proto__"
    · simp [hk, hk2]
    · simp [hk, hk2, getOwn_setOwn_other _ _ _ _ h]

theorem getProp_foldl_other (l : List RawChannel) (o : DataObject) (k : String)
    (h : ∀ d ∈ l, d.id.toStr ≠ k) :
    getProp (l.foldl (fun data dataPreview =>
      setProp data dataPreview.id.toStr (channelEntry dataPreview)) o) k = getProp o k := by
  induction l generalizing o with
  | nil => rfl
  | cons c rest ih =>
    rw [List.foldl_cons, ih _ (fun d hd => h d (List.mem_cons_of_mem _ hd))]
    exact getProp_setProp_other _ _ _ _ (h c (List.mem_cons_self _ _))

/-- C8, the claim as stated fails: when two channels carry the same id the
later one overwrites the earlier one, so `data.c1` is not the entry of the
first channel. -/
theorem Thing_twin_channel_counterexample :
    twinRaw.attributes.channels =
        [sampleChannel "c1" (.num "5") (.str "%"), sampleChannel "c1" (.num "7") (.str "C")] ∧
      getProp (Thing twinRaw).data "c1" ≠
        some { value := .num "5", unit := .str "%", recordedAt := .str "t" } ∧
      getProp (Thing twinRaw).data "c1" =
        some { value := .num "7", unit := .str "C", recordedAt := .str "t" } := by
  refine ⟨rfl, by decide, by decide⟩

/-- C8, amended: `Thing(raw)` copies `id`, the descriptive fields, the three
timestamps and `relationships` as the claim says, and for each channel entry
`c` that is not followed by a later entry with the same id (as a property
key), `data[c.id]` holds `c.value` or `null` when that is falsy, `c.unit` or
`null` when that is falsy, and `c.recorded_at` unchanged. -/
theorem Thing_fields (rawData : RawData) :
    (Thing rawData).id = rawData.id ∧
    (Thing rawData).title = rawData.attributes.title ∧
    (Thing rawData).description = rawData.attributes.description ∧
    (Thing rawData).datasource = rawData.attributes.datasource ∧
    (Thing rawData).longitude = rawData.attributes.longitude ∧
    (Thing rawData).latitude = rawData.attributes.latitude ∧
    (Thing rawData).distance = rawData.attributes.distance ∧
    (Thing rawData).createdAt = rawData.attributes.created_at ∧
    (Thing rawData).updatedAt = rawData.attributes.updated_at ∧
    (Thing rawData).indexedAt = rawData.attributes.indexed_at ∧
    (Thing rawData).relationships = rawData.relationships ∧
    ∀ (before : List RawChannel) (c : RawChannel) (after : List RawChannel),
      rawData.attributes.channels = before ++ c :: after →
      (∀ d ∈ after, d.id.toStr ≠ c.id.toStr) →
      getProp (Thing rawData).data c.id.toStr =
        some
          { value := if c.value.truthy then c.value else .null
            unit := if c.unit.truthy then c.unit else .null
            recordedAt := c.recorded_at } := by
  refine ⟨rfl, rfl, rfl, rfl, rfl, rfl, rfl, rfl, rfl, rfl, rfl, ?_⟩
  intro before c after hc hafter
  unfold Thing
  simp only [hc, List.foldl_append, List.foldl_cons]
  rw [getProp_foldl_other after _ _ hafter, getProp_setProp_same]
  rfl

theorem Thing_fields_witness :
    getProp (Thing (sampleRaw 1 [sampleChannel "c1" (.num "5") (.str "%")])).data "c1" =
        some { value := .num "5", unit := .str "%", recordedAt := .str "t" } ∧
      getProp (Thing (sampleRaw 1 [sampleChannel "c1" (.num "0") (.str "")])).data "c1" =
        some { value := .null, unit := .null, recordedAt := .str "t" } :=
  ⟨(Thing_fields (sampleRaw 1 [sampleChannel "c1" (.num "5") (.str "%")])).2.2.2.2.2.2.2.2.2.2.2
      [] (sampleChannel "c1" (.num "5") (.str "%")) [] rfl (by simp),
    (Thing_fields (sampleRaw 1 [sampleChannel "c1" (.num "0") (.str "")])).2.2.2.2.2.2.2.2.2.2.2
      [] (sampleChannel "c1" (.num "0") (.str "")) [] rfl (by simp)⟩

/-! ## One entry into `nextPageUntilAmount` -/

theorem request_not_threw (net : Net) (url : JSVal) (w w2 : World) (e : String) :
    request net url w ≠ (.threw e, w2) := by
  unfold request
  split
  · simp
  · split <;> simp

theorem execute_not_threw (net : Net) (arg : JSVal) (w w2 : World) (e : String) :
    execute net arg w ≠ (.threw e, w2) := by
  rcases execute_cases net arg w with h | h | h | ⟨url, h⟩
  · rw [h]; simp
  · rw [h]; simp
  · rw [h]; simp
  · rw [h]; exact request_not_threw net url w w2 e

/-- A successful `next()` is one request answered with status 200; the page
replaces `currentPage`, `nextPage` and `things`. -/
theorem next_resolved (net : Net) (w w2 : World) (h : next net w = (.resolved, w2)) :
    ∃ url body, net w.requests.length url = .response 200 body ∧
      w2 = { client :=
              { w.client with
                currentPage := body.links.self
                nextPage := body.links.next.orElse .null
                things := body.data.map Thing }
             requests := w.requests ++ [url] } := by
  unfold next at h
  rcases execute_cases net (.bool true)
      { w with client := { w.client with currentPage := w.client.nextPage } } with
    h1 | h1 | h1 | ⟨url, h1⟩
  · rw [h1] at h; simp at h
  · rw [h1] at h; simp at h
  · rw [h1] at h; simp at h
  · rw [h1] at h
    obtain ⟨body, hb, hw⟩ := request_resolved net url _ w2 h
    exact ⟨url, body, hb, hw⟩

/-- The ways one entry into `nextPageUntilAmount` with an argument object can
end: one of the three checks rejects and the world is untouched; or the
parameters are saved and `next()` rejects; or `next()` resolves and the
filter throws; or `next()` resolves, the filter returns the accepted things,
and either the stop condition holds, or the method is entered again with the
extended array. -/
theorem nextPageUntilAmount_iter (net : Net) (fuel : Nat) (args0 : Args) (w : World)
    (r : Outcome × World × Option Args)
    (h : nextPageUntilAmount net (fuel + 1) (some args0) w = some r) :
    (args0.amount = none ∧
      r = (.rejected (.message "No arguments were given"), w, some (restoreArray args0))) ∨
    (args0.amount ≠ none ∧ args0.query = .undefined ∧ w.client.currentQuery = .undefined ∧
      r = (.rejected (.message "No search query was defined"), w, some (restoreArray args0))) ∨
    (args0.amount ≠ none ∧ args0.bounds = .undefined ∧ w.client.bounds = .undefined ∧
      r = (.rejected (.message "No search bounds were defined"), w,
        some (restoreArray args0))) ∨
    (args0.amount ≠ none ∧ ∃ reason w2,
      next net (saveParameters (restoreArray args0) w) = (.rejected reason, w2) ∧
      r = (.rejected reason, w2, some (restoreArray args0))) ∨
    (args0.amount ≠ none ∧ ∃ w2,
      next net (saveParameters (restoreArray args0) w) = (.resolved, w2) ∧
      filterThings args0 w2.client.things = none ∧
      r = (.rejected (.thrown "TypeError"), w2, some (restoreArray args0))) ∨
    (args0.amount ≠ none ∧ ∃ w2,
      next net (saveParameters (restoreArray args0) w) = (.resolved, w2) ∧
      filterThings args0 w2.client.things =
        some (w2.client.things.filter (accepted args0)) ∧
      ((args0.amount.getD 0 ≤
            ((args0.fullThingsArray.getD [] ++
              w2.client.things.filter (accepted args0)).length : Int) ∨
          w2.client.nextPage = .null) ∧
        r = (.resolved,
          { w2 with
            client :=
              { w2.client with
                things := args0.fullThingsArray.getD [] ++
                  w2.client.things.filter (accepted args0) } },
          some { args0 with
            fullThingsArray := some (args0.fullThingsArray.getD [] ++
              w2.client.things.filter (accepted args0)) }) ∨
       (¬ (args0.amount.getD 0 ≤
            ((args0.fullThingsArray.getD [] ++
              w2.client.things.filter (accepted args0)).length : Int) ∨
          w2.client.nextPage = .null) ∧
        nextPageUntilAmount net fuel
          (some { args0 with
            fullThingsArray := some (args0.fullThingsArray.getD [] ++
              w2.client.things.filter (accepted args0)) }) w2 = some r))) := by
  rw [nextPageUntilAmount] at h
  simp only at h
  split at h
  · rename_i h1
    left
    exact ⟨h1, (Option.some.inj h).symm⟩
  · rename_i h1
    split at h
    · rename_i h2
      right; left
      exact ⟨h1, h2.1, h2.2, (Option.some.inj h).symm⟩
    · split at h
      · rename_i h3
        right; right; left
        exact ⟨h1, h3.1, h3.2, (Option.some.inj h).symm⟩
      · split at h
        · rename_i w2 hn
          split at h
          · rename_i hf
            rw [filterThings_congr (restoreArray args0) args0] at hf
            right; right; right; right; left
            exact ⟨h1, w2, hn, hf, (Option.some.inj h).symm⟩
          · rename_i filteredArray hf
            rw [filterThings_congr (restoreArray args0) args0] at hf
            have hfa : filteredArray = w2.client.things.filter (accepted args0) :=
              filterThings_eq_filter args0 _ _ hf
            subst hfa
            right; right; right; right; right
            refine ⟨h1, w2, hn, hf, ?_⟩
            split at h
            · rename_i hs
              left
              exact ⟨hs, (Option.some.inj h).symm⟩
            · rename_i hs
              right
              exact ⟨hs, h⟩
        · rename_i reason w2 hn
          right; right; right; left
          exact ⟨h1, reason, w2, hn, (Option.some.inj h).symm⟩
        · rename_i e w2 hn
          exact absurd hn (execute_not_threw net _ _ w2 e)

/-! ## Accumulating across pages -/

/-- C1: whenever `nextPageUntilAmount` resolves, it has fetched a non-empty
sequence of pages, each a request answered with status 200 and logged in
order; the `things` of the session are the initial accumulated items followed
by the matching items of each fetched page in fetch order; at that moment
`things.length >= amount` or `nextPage === null` (the `nextPage` being that
of the last page); and after every earlier page the accumulated list was
shorter than `amount` and the next link was not `null`, so no request follows
the first page at which the stop condition holds. -/
theorem nextPageUntilAmount_resolved (net : Net) (fuel : Nat) (args : Args) (w w2 : World)
    (out : Option Args)
    (h : nextPageUntilAmount net fuel (some args) w = some (.resolved, w2, out)) :
    ∃ (amount : Int) (pages : List (JSVal × Body)),
      args.amount = some amount ∧ pages ≠ [] ∧
      w2.requests = w.requests ++ pages.map Prod.fst ∧
      (∀ k url body, pages[k]? = some (url, body) →
        net (w.requests.length + k) url = .response 200 body) ∧
      w2.client.things =
        accumulate args (args.fullThingsArray.getD []) (pages.map Prod.snd) ∧
      (amount ≤ (w2.client.things.length : Int) ∨ w2.client.nextPage = .null) ∧
      (∀ url body, pages.getLast? = some (url, body) →
        w2.client.nextPage = body.links.next.orElse .null) ∧
      (∀ k url body, k + 1 < pages.length → pages[k]? = some (url, body) →
        ((accumulate args (args.fullThingsArray.getD [])
            ((pages.take (k + 1)).map Prod.snd)).length : Int) < amount ∧
          body.links.next.orElse .null ≠ .null) := by
  induction fuel generalizing args w with
  | zero => simp [nextPageUntilAmount] at h
  | succ n ih =>
    rcases nextPageUntilAmount_iter net n args w _ h with
      ⟨_, hr⟩ | ⟨_, _, _, hr⟩ | ⟨_, _, _, hr⟩ | ⟨_, _, _, _, hr⟩ | ⟨_, _, _, _, hr⟩ |
      ⟨hamt, w3, hn, _, hcase⟩
    · simp at hr
    · simp at hr
    · simp at hr
    · simp at hr
    · simp at hr
    · obtain ⟨amount, ha⟩ := Option.ne_none_iff_exists'.1 hamt
      obtain ⟨url, body, hb, hw3⟩ := next_resolved net _ w3 hn
      have hreq : w3.requests = w.requests ++ [url] := by rw [hw3]; rfl
      have hthings : w3.client.things = body.data.map Thing := by rw [hw3]
      have hnext : w3.client.nextPage = body.links.next.orElse .null := by rw [hw3]
      have hlen : (saveParameters (restoreArray args) w).requests.length =
          w.requests.length := rfl
      rw [hlen] at hb
      rcases hcase with ⟨hstop, hr⟩ | ⟨hns, hrec⟩
      · simp only [Prod.mk.injEq, true_and] at hr
        obtain ⟨hw2, _⟩ := hr
        subst hw2
        refine ⟨amount, [(url, body)], ha, by simp, by simpa using hreq, ?_, ?_, ?_, ?_, ?_⟩
        · intro k u b hk
          cases k with
          | zero =>
            simp only [List.getElem?_cons_zero, Option.some.injEq, Prod.mk.injEq] at hk
            obtain ⟨rfl, rfl⟩ := hk
            simpa using hb
          | succ k => simp at hk
        · simp [accumulate, hthings]
        · rw [ha] at hstop
          simpa using hstop
        · intro u b hl
          simp only [List.getLast?_singleton, Option.some.injEq, Prod.mk.injEq] at hl
          obtain ⟨_, rfl⟩ := hl
          exact hnext
        · intro k u b hk
          simp at hk
      · obtain ⟨amount2, pages, ha2, hne, hreq2, hnet2, hth2, hstop2, hlast2, hearly2⟩ :=
          ih _ w3 hrec
        have hamount : amount2 = amount := by
          have : args.amount = some amount2 := ha2
          rw [ha] at this
          exact (Option.some.inj this).symm
        subst hamount
        have hacc : ∀ l : List Body,
            accumulate args (args.fullThingsArray.getD []) (body :: l) =
              accumulate args
                (args.fullThingsArray.getD [] ++ w3.client.things.filter (accepted args))
                l := by
          intro l
          simp [accumulate, hthings]
        have hsame : ∀ (i : List ParsedData) (l : List Body),
            accumulate
              { args with
                fullThingsArray := some (args.fullThingsArray.getD [] ++
                  w3.client.things.filter (accepted args)) } i l =
            accumulate args i l := by
          intro i l
          unfold accumulate
          rw [accepted_congr _ args]
        refine ⟨amount2, (url, body) :: pages, ha, by simp, ?_, ?_, ?_, hstop2, ?_, ?_⟩
        · rw [hreq2, hreq]
          simp
        · intro k u b hk
          cases k with
          | zero =>
            simp only [List.getElem?_cons_zero, Option.some.injEq, Prod.mk.injEq] at hk
            obtain ⟨rfl, rfl⟩ := hk
            simpa using hb
          | succ k =>
            rw [List.getElem?_cons_succ] at hk
            have := hnet2 k u b hk
            rw [hreq] at this
            simpa [Nat.add_assoc, Nat.add_comm 1 k] using this
        · rw [hth2, hsame]
          simp only [Option.getD_some, List.map_cons]
          rw [hacc]
        · intro u b hl
          apply hlast2 u b
          cases pages with
          | nil => exact absurd rfl hne
          | cons p ps => simpa using hl
        · intro k u b hk hget
          cases k with
          | zero =>
            simp only [List.getElem?_cons_zero, Option.some.injEq, Prod.mk.injEq] at hget
            obtain ⟨rfl, rfl⟩ := hget
            rw [ha] at hns
            simp only [Option.getD_some, not_or, not_le] at hns
            refine ⟨?_, ?_⟩
            · simpa [accumulate, hthings] using hns.1
            · rw [← hnext]
              exact hns.2
          | succ k =>
            rw [List.getElem?_cons_succ] at hget
            have hk2 : k + 1 < pages.length := by simpa using hk
            have := hearly2 k u b hk2 hget
            rw [hsame] at this
            simp only [Option.getD_some] at this
            simp only [List.take_succ_cons, List.map_cons]
            rw [hacc]
            exact this

theorem nextPageUntilAmount_resolved_witness :
    nextPageUntilAmount pagedNet 5 (some sampleArgs) freshWorld =
        some (.resolved, sampleRun.2.1, sampleRun.2.2) ∧
      ∃ (amount : Int) (pages : List (JSVal × Body)),
        sampleArgs.amount = some amount ∧ pages ≠ [] ∧
        sampleRun.2.1.requests = freshWorld.requests ++ pages.map Prod.fst ∧
        sampleRun.2.1.client.things =
          accumulate sampleArgs (sampleArgs.fullThingsArray.getD []) (pages.map Prod.snd) ∧
        (amount ≤ (sampleRun.2.1.client.things.length : Int) ∨
          sampleRun.2.1.client.nextPage = .null) :=
  ⟨by decide,
    match nextPageUntilAmount_resolved pagedNet 5 sampleArgs freshWorld sampleRun.2.1
        sampleRun.2.2 (by decide) with
    | ⟨amount, pages, h1, h2, h3, _, h5, h6, _⟩ => ⟨amount, pages, h1, h2, h3, h5, h6⟩⟩

/-! ## Validation failures and the state of the session -/

theorem bad_response_not_validation (t : String) :
    ("Bad HTTP Response (" ++ t ++ ")") ∉ validationMessages := by
  intro h
  have hd : ∀ m ∈ validationMessages, m.data.head? ≠ some 'B' := by decide
  apply hd _ h
  simp [String.data_append]

/-- A request that rejects has been logged, has left the client as it was,
and rejects with the transport error or with the bad-status string. -/
theorem request_rejected (net : Net) (url : JSVal) (w w2 : World) (reason : Rejection)
    (h : request net url w = (.rejected reason, w2)) :
    w2 = { w with requests := w.requests ++ [url] } ∧
      ((∃ err, reason = .transport err) ∨
        ∃ status : Int, reason = .message ("Bad HTTP Response (" ++ toString status ++ ")")) := by
  unfold request at h
  split at h
  · rename_i err _
    simp only [Prod.mk.injEq, Outcome.rejected.injEq] at h
    exact ⟨h.2.symm, Or.inl ⟨err, h.1.symm⟩⟩
  · rename_i statusCode body _
    split at h
    · simp only [Prod.mk.injEq, Outcome.rejected.injEq] at h
      exact ⟨h.2.symm, Or.inr ⟨statusCode, h.1.symm⟩⟩
    · simp at h

theorem request_not_validation (net : Net) (url : JSVal) (w w2 : World) (m : String)
    (hm : m ∈ validationMessages) :
    request net url w ≠ (.rejected (.message m), w2) := by
  intro h
  obtain ⟨_, h2 | ⟨status, h2⟩⟩ := request_rejected net url w w2 _ h
  · obtain ⟨err, he⟩ := h2
    simp at he
  · simp only [Rejection.message.injEq] at h2
    rw [h2] at hm
    exact bad_response_not_validation _ hm

/-- A validation failure of `execute` returns the world it was given. -/
theorem execute_validation_frame (net : Net) (arg : JSVal) (w w2 : World) (m : String)
    (hm : m ∈ validationMessages) (h : execute net arg w = (.rejected (.message m), w2)) :
    w2 = w := by
  rcases execute_cases net arg w with h1 | h1 | h1 | ⟨url, h1⟩
  · rw [h1] at h
    simp only [Prod.mk.injEq] at h
    exact h.2.symm
  · rw [h1] at h
    simp only [Prod.mk.injEq] at h
    exact h.2.symm
  · rw [h1] at h
    simp at h
  · rw [h1] at h
    exact absurd h (request_not_validation net url w w2 m hm)

theorem orElse_null_ne_undefined (v : JSVal) : v.orElse .null ≠ .undefined := by
  unfold JSVal.orElse
  split
  · rename_i ht
    intro hv
    rw [hv] at ht
    simp [JSVal.truthy] at ht
  · simp

/-- Entered on a session that holds a cursor, `nextPageUntilAmount` never
rejects with a validation message of `execute`. -/
theorem nextPageUntilAmount_cursor_no_execute_validation (net : Net) (fuel : Nat)
    (args : Args) (w w2 : World) (out : Option Args) (m : String)
    (h1 : w.client.nextPage ≠ .null) (h2 : w.client.nextPage ≠ .undefined)
    (h : nextPageUntilAmount net fuel (some args) w = some (.rejected (.message m), w2, out)) :
    m ≠ "No query was defined" ∧ m ≠ "Invalid geobounds parameter" := by
  induction fuel generalizing args w with
  | zero => simp [nextPageUntilAmount] at h
  | succ n ih =>
    rcases nextPageUntilAmount_iter net n args w _ h with
      ⟨_, hr⟩ | ⟨_, _, _, hr⟩ | ⟨_, _, _, hr⟩ | ⟨_, reason, w3, hn, hr⟩ |
      ⟨_, _, _, _, hthrow⟩ | ⟨_, w3, hn, _, hcase⟩
    · simp only [Prod.mk.injEq, Outcome.rejected.injEq, Rejection.message.injEq] at hr
      rw [hr.1]
      exact ⟨by decide, by decide⟩
    · simp only [Prod.mk.injEq, Outcome.rejected.injEq, Rejection.message.injEq] at hr
      rw [hr.1]
      exact ⟨by decide, by decide⟩
    · simp only [Prod.mk.injEq, Outcome.rejected.injEq, Rejection.message.injEq] at hr
      rw [hr.1]
      exact ⟨by decide, by decide⟩
    · simp only [Prod.mk.injEq, Outcome.rejected.injEq] at hr
      rw [← hr.1] at hn
      have hc := next_cursor net (saveParameters (restoreArray args) w) h1 h2
      rw [hc] at hn
      constructor
      · intro hm
        exact request_not_validation net _ _ w3 m (by rw [hm]; decide) hn
      · intro hm
        exact request_not_validation net _ _ w3 m (by rw [hm]; decide) hn
    · simp at hthrow
    · rcases hcase with ⟨_, hr⟩ | ⟨hns, hrec⟩
      · simp at hr
      · obtain ⟨url, body, _, hw3⟩ := next_resolved net _ w3 hn
        have hnp : w3.client.nextPage = body.links.next.orElse .null := by rw [hw3]
        refine ih _ w3 ?_ ?_ hrec
        · intro hnull
          exact hns (Or.inr hnull)
        · rw [hnp]
          exact orElse_null_ne_undefined _

/-- With an amount given, `nextPageUntilAmount` never rejects with the
message of its first check. -/
theorem nextPageUntilAmount_amount_given (net : Net) (fuel : Nat) (args : Args)
    (w w2 : World) (out : Option Args) (ha : args.amount ≠ none) :
    nextPageUntilAmount net fuel (some args) w ≠
      some (.rejected (.message "No arguments were given"), w2, out) := by
  induction fuel generalizing args w with
  | zero => simp [nextPageUntilAmount]
  | succ n ih =>
    intro h
    rcases nextPageUntilAmount_iter net n args w _ h with
      ⟨hr, _⟩ | ⟨_, _, _, hr⟩ | ⟨_, _, _, hr⟩ | ⟨_, reason, w3, hn, hr⟩ |
      ⟨_, _, _, _, hthrow⟩ | ⟨_, w3, hn, _, hcase⟩
    · exact ha hr
    · simp only [Prod.mk.injEq, Outcome.rejected.injEq, Rejection.message.injEq] at hr
      exact absurd hr.1 (by decide)
    · simp only [Prod.mk.injEq, Outcome.rejected.injEq, Rejection.message.injEq] at hr
      exact absurd hr.1 (by decide)
    · simp only [Prod.mk.injEq, Outcome.rejected.injEq] at hr
      rw [← hr.1] at hn
      unfold next at hn
      rcases execute_cases net (.bool true)
          { saveParameters (restoreArray args) w with
            client :=
              { (saveParameters (restoreArray args) w).client with
                currentPage := (saveParameters (restoreArray args) w).client.nextPage } }
        with h1 | h1 | h1 | ⟨url, h1⟩
      · rw [h1] at hn
        simp only [Prod.mk.injEq, Outcome.rejected.injEq, Rejection.message.injEq] at hn
        exact absurd hn.1 (by decide)
      · rw [h1] at hn
        simp only [Prod.mk.injEq, Outcome.rejected.injEq, Rejection.message.injEq] at hn
        exact absurd hn.1 (by decide)
      · rw [h1] at hn
        simp at hn
      · rw [h1] at hn
        exact request_not_validation net url _ w3 _ (by decide) hn
    · simp at hthrow
    · rcases hcase with ⟨_, hr⟩ | ⟨_, hrec⟩
      · simp at hr
      · refine ih _ w3 ?_ hrec
        exact ha

/-- C6, the claim as stated fails: `next()` on an unconfigured session whose
`nextPage` is `null` rejects with a validation error after it has set
`currentPage` to `null`; and `nextPageUntilAmount` with arguments that carry no
query, on a session that has one and holds a cursor, rejects with
`No search query was defined` after one request, with the query of the session
lost and the limit set to 1. -/
theorem validation_after_mutation_counterexample :
    (next emptyNet unboundedWorld).1 = .rejected (.message "Invalid geobounds parameter") ∧
      unboundedWorld.client.currentPage = .str "page0" ∧
      (next emptyNet unboundedWorld).2.client.currentPage = .null ∧
      (nextPageUntilAmount pagedNet 5 (some boundsOnlyArgs) cursorWorld).map
          (fun r => (r.1, r.2.1.requests.length, r.2.1.client.currentQuery,
            r.2.1.client.limit)) =
        some (.rejected (.message "No search query was defined"), 1, .undefined, .num "1") ∧
      cursorWorld.requests.length = 0 ∧
      cursorWorld.client.currentQuery = .str "temperature" ∧
      cursorWorld.client.limit = .num "10" := by
  refine ⟨by decide, by decide, by decide, by decide, by decide, by decide, by decide⟩

/-- C6, amended: when `query` or `execute` rejects with a validation message,
no request has been issued and every field of the session is as before;
when `next()` does, no request has been issued and every field is as before
except `currentPage`, which holds the prior `nextPage`; when
`nextPageUntilAmount` rejects with `No arguments were given`, no request has
been issued and every field is as before; and when it rejects with a
validation message of `execute`, no request has been issued, and the session
is the one it was with the parameters saved and `currentPage` set to the prior
`nextPage`. -/
theorem validation_failure_frame (net : Net) (w w2 : World) (m : String)
    (hm : m ∈ validationMessages) :
    (∀ q b, query net q b w = (.rejected (.message m), w2) → w2 = w) ∧
    (∀ arg, execute net arg w = (.rejected (.message m), w2) → w2 = w) ∧
    (next net w = (.rejected (.message m), w2) →
      w2 = { w with client := { w.client with currentPage := w.client.nextPage } }) ∧
    (∀ fuel args out,
      nextPageUntilAmount net fuel args w = some (.rejected (.message m), w2, out) →
      (m = "No arguments were given" → w2 = w) ∧
      (m = "No query was defined" ∨ m = "Invalid geobounds parameter" →
        w2.requests = w.requests ∧
        ∃ a, args = some a ∧
          w2.client =
            { w.client with
              currentQuery := a.query
              bounds := a.bounds
              limit := .num "1"
              currentPage := w.client.nextPage })) := by
  refine ⟨?_, ?_, ?_, ?_⟩
  · intro q b h
    unfold query at h
    split at h
    · simp only [Prod.mk.injEq] at h
      exact h.2.symm
    · rename_i hq
      have hq2 : q ≠ .undefined ∧ q.typeof = "string" := by
        constructor
        · intro hu; exact hq (Or.inl hu)
        · by_contra ht; exact hq (Or.inr ht)
      obtain ⟨sq, rfl⟩ := (typeof_string_iff q).1 hq2.2
      split at h
      · simp only [Prod.mk.injEq] at h
        exact h.2.symm
      · simp at h
      · rename_i bb
        split at h
        · simp only [Prod.mk.injEq] at h
          exact h.2.symm
        · rename_i hb
          have hbb : fieldMissing bb = false := by simpa using hb
          rw [execute_fresh_valid net .undefined _ bb (by simp) (by simp) rfl hbb] at h
          exact absurd h (request_not_validation net _ _ w2 m hm)
  · intro arg h
    exact execute_validation_frame net arg w w2 m hm h
  · intro h
    unfold next at h
    exact execute_validation_frame net _ _ w2 m hm h
  · intro fuel args out h
    cases args with
    | none =>
      cases fuel with
      | zero => simp [nextPageUntilAmount] at h
      | succ n => simp [nextPageUntilAmount] at h
    | some a =>
      cases fuel with
      | zero => simp [nextPageUntilAmount] at h
      | succ n =>
        rcases nextPageUntilAmount_iter net n a w _ h with
          ⟨_, hr⟩ | ⟨_, _, _, hr⟩ | ⟨_, _, _, hr⟩ | ⟨_, reason, w3, hn, hr⟩ |
          ⟨_, _, _, _, hthrow⟩ | ⟨hamt, w3, hn, _, hcase⟩
        · simp only [Prod.mk.injEq, Outcome.rejected.injEq, Rejection.message.injEq] at hr
          obtain ⟨hm1, hw, _⟩ := hr
          refine ⟨fun _ => hw, ?_⟩
          intro hmm
          rw [hm1] at hmm
          rcases hmm with hmm | hmm <;> exact absurd hmm (by decide)
        · simp only [Prod.mk.injEq, Outcome.rejected.injEq, Rejection.message.injEq] at hr
          obtain ⟨hm1, hw, _⟩ := hr
          refine ⟨fun _ => hw, ?_⟩
          intro hmm
          rw [hm1] at hmm
          rcases hmm with hmm | hmm <;> exact absurd hmm (by decide)
        · simp only [Prod.mk.injEq, Outcome.rejected.injEq, Rejection.message.injEq] at hr
          obtain ⟨hm1, hw, _⟩ := hr
          refine ⟨fun _ => hw, ?_⟩
          intro hmm
          rw [hm1] at hmm
          rcases hmm with hmm | hmm <;> exact absurd hmm (by decide)
        · simp only [Prod.mk.injEq, Outcome.rejected.injEq] at hr
          obtain ⟨hm1, hw, _⟩ := hr
          subst hw
          rw [← hm1] at hn
          unfold next at hn
          have hw3 := execute_validation_frame net _ _ w2 m hm hn
          constructor
          · intro hmm
            rw [hmm] at h
            exact absurd h (nextPageUntilAmount_amount_given net (n + 1) a w _ _ (by assumption))
          · intro _
            rw [hw3]
            exact ⟨rfl, a, rfl, rfl⟩
        · simp at hthrow
        · rcases hcase with ⟨_, hr⟩ | ⟨hns, hrec⟩
          · simp at hr
          · obtain ⟨url, body, _, hw3⟩ := next_resolved net _ w3 hn
            have hnp : w3.client.nextPage = body.links.next.orElse .null := by rw [hw3]
            have hno := nextPageUntilAmount_cursor_no_execute_validation net n _ w3 w2 out m
              (fun hnull => hns (Or.inr hnull))
              (by rw [hnp]; exact orElse_null_ne_undefined _) hrec
            constructor
            · intro hmm
              rw [hmm] at hrec
              exact absurd hrec (nextPageUntilAmount_amount_given net n _ w3 _ _ hamt)
            · intro hmm
              rcases hmm with hmm | hmm
              · exact absurd hmm hno.1
              · exact absurd hmm hno.2

theorem validation_failure_frame_witness :
    execute emptyNet .undefined freshWorld =
        (.rejected (.message "No query was defined"), freshWorld) ∧
      (next emptyNet unboundedWorld).2 =
        { unboundedWorld with
          client :=
            { unboundedWorld.client with currentPage := unboundedWorld.client.nextPage } } :=
  ⟨by decide,
    (validation_failure_frame emptyNet unboundedWorld (next emptyNet unboundedWorld).2
      "Invalid geobounds parameter" (by decide)).2.2.1 (by decide)⟩

/-! ## What `query` checks -/

theorem query_not_string (net : Net) (q : JSVal) (b : BoundsVal) (w : World)
    (hq : ∀ s, q ≠ .str s) :
    query net q b w = (.rejected (.message "No query was defined"), w) := by
  have ht : q.typeof ≠ "string" := by
    intro ht
    obtain ⟨s, hs⟩ := (typeof_string_iff q).1 ht
    exact hq s hs
  simp [query, ht]

theorem query_bounds_undefined (net : Net) (s : String) (w : World) :
    query net (.str s) .undefined w =
      (.rejected (.message "Invalid geobounds parameter"), w) := by
  simp [query, JSVal.typeof]

theorem query_bounds_null (net : Net) (s : String) (w : World) :
    query net (.str s) .null w = (.rejected (.thrown "TypeError"), w) := by
  simp [query, JSVal.typeof]

theorem query_field_missing (net : Net) (s : String) (bb : Bounds) (w : World)
    (hb : fieldMissing bb = true) :
    query net (.str s) (.object bb) w =
      (.rejected (.message "Invalid geobounds parameter"), w) := by
  simp [query, JSVal.typeof, hb]

theorem query_valid (net : Net) (s : String) (bb : Bounds) (w : World)
    (hb : fieldMissing bb = false) :
    query net (.str s) (.object bb) w =
      request net (.str (freshUrl bb w.client.limit (.str s)))
        { w with client := { w.client with currentQuery := .str s, bounds := .object bb } } := by
  have h1 : query net (.str s) (.object bb) w =
      execute net .undefined
        { w with client := { w.client with currentQuery := .str s, bounds := .object bb } } := by
    simp [query, JSVal.typeof, hb]
  rw [h1, execute_fresh_valid net .undefined _ bb (by simp) (by simp) rfl hb]

/-- C11, the claim as stated fails: `query` with the empty string as query
and with bounds whose four fields are strings passes both checks, issues a
request and resolves. -/
theorem query_blank_text_counterexample :
    (query emptyNet (.str "") (.object textBounds) freshWorld).1 = .resolved ∧
      (query emptyNet (.str "") (.object textBounds) freshWorld).2.requests.length = 1 ∧
      textBounds.minLat = .str "south" := by
  refine ⟨by decide, by decide, rfl⟩

/-- C11, amended: `query(q, b)` proceeds to a network call exactly when `q`
is a string (the empty string included) and `b` is an object with all four
fields defined (of any type); then it issues exactly one request; for every
other input it makes no network call and leaves the session unchanged: it
returns the missing-query error when `q` is not a string, the
invalid-geobounds error when `q` is a string and `b` is `undefined` or an
object that lacks a field, and when `q` is a string and `b` is `null` the
promise rejects with the `TypeError` raised by reading a field of `null`. -/
theorem query_network_iff (net : Net) (q : JSVal) (b : BoundsVal) (w : World) :
    ((query net q b w).2.requests ≠ w.requests ↔
      (∃ s, q = .str s) ∧ ∃ bb, b = .object bb ∧
        bb.minLat ≠ .undefined ∧ bb.maxLat ≠ .undefined ∧
          bb.minLon ≠ .undefined ∧ bb.maxLon ≠ .undefined) ∧
    ((query net q b w).2.requests ≠ w.requests →
      (query net q b w).2.requests.length = w.requests.length + 1) ∧
    ((query net q b w).2.requests = w.requests →
      ((∀ s, q ≠ .str s) ∧
        query net q b w = (.rejected (.message "No query was defined"), w)) ∨
      ((∃ s, q = .str s) ∧
        (b = .undefined ∨ ∃ bb, b = .object bb ∧
          (bb.minLat = .undefined ∨ bb.maxLat = .undefined ∨
            bb.minLon = .undefined ∨ bb.maxLon = .undefined)) ∧
        query net q b w = (.rejected (.message "Invalid geobounds parameter"), w)) ∨
      ((∃ s, q = .str s) ∧ b = .null ∧
        query net q b w = (.rejected (.thrown "TypeError"), w))) := by
  by_cases hq : ∃ s, q = .str s
  · obtain ⟨s, rfl⟩ := hq
    cases b with
    | undefined =>
      have hr := query_bounds_undefined net s w
      refine ⟨?_, ?_, ?_⟩
      · rw [hr]
        constructor
        · intro h; exact absurd rfl h
        · rintro ⟨_, bb, hbb, _⟩
          simp at hbb
      · rw [hr]
        intro h; exact absurd rfl h
      · intro _
        exact Or.inr (Or.inl ⟨⟨s, rfl⟩, Or.inl rfl, hr⟩)
    | null =>
      have hr := query_bounds_null net s w
      refine ⟨?_, ?_, ?_⟩
      · rw [hr]
        constructor
        · intro h; exact absurd rfl h
        · rintro ⟨_, bb, hbb, _⟩
          simp at hbb
      · rw [hr]
        intro h; exact absurd rfl h
      · intro _
        exact Or.inr (Or.inr ⟨⟨s, rfl⟩, rfl, hr⟩)
    | object bb =>
      by_cases hb : fieldMissing bb = true
      · have hr := query_field_missing net s bb w hb
        have hf : bb.minLat = .undefined ∨ bb.maxLat = .undefined ∨
            bb.minLon = .undefined ∨ bb.maxLon = .undefined := by
          by_contra hc
          push_neg at hc
          have := (fieldMissing_false bb).2 hc
          rw [this] at hb
          simp at hb
        refine ⟨?_, ?_, ?_⟩
        · rw [hr]
          constructor
          · intro h; exact absurd rfl h
          · rintro ⟨_, bb2, hbb, hdef⟩
            simp only [BoundsVal.object.injEq] at hbb
            subst hbb
            have := (fieldMissing_false bb).2 hdef
            rw [this] at hb
            simp at hb
        · rw [hr]
          intro h; exact absurd rfl h
        · intro _
          exact Or.inr (Or.inl ⟨⟨s, rfl⟩, Or.inr ⟨bb, rfl, hf⟩, hr⟩)
      · have hbb : fieldMissing bb = false := by simpa using hb
        have hr := query_valid net s bb w hbb
        have hreq : (query net (.str s) (.object bb) w).2.requests =
            w.requests ++ [.str (freshUrl bb w.client.limit (.str s))] := by
          rw [hr, request_requests]
        have hne : (query net (.str s) (.object bb) w).2.requests ≠ w.requests := by
          rw [hreq]
          simp
        refine ⟨?_, ?_, ?_⟩
        · constructor
          · intro _
            exact ⟨⟨s, rfl⟩, bb, rfl, (fieldMissing_false bb).1 hbb⟩
          · intro _
            exact hne
        · intro _
          rw [hreq]
          simp
        · intro h
          exact absurd h hne
  · have hq2 : ∀ s, q ≠ .str s := fun s hs => hq ⟨s, hs⟩
    have hr := query_not_string net q b w hq2
    refine ⟨?_, ?_, ?_⟩
    · rw [hr]
      constructor
      · intro h; exact absurd rfl h
      · rintro ⟨hs, _⟩
        exact absurd hs hq
    · rw [hr]
      intro h; exact absurd rfl h
    · intro _
      exact Or.inl ⟨hq2, hr⟩

theorem query_network_iff_witness :
    (query emptyNet (.str "") (.object textBounds) freshWorld).2.requests.length =
      freshWorld.requests.length + 1 :=
  (query_network_iff emptyNet (.str "") (.object textBounds) freshWorld).2.1 (by decide)

/-! ## The checks of `nextPageUntilAmount` and of `execute` -/

/-- C12: called with an argument object, `nextPageUntilAmount` rejects with
`No arguments were given` if `args.amount` is undefined; otherwise with
`No search query was defined` if both `args.query` and the query of the
session are undefined; otherwise with `No search bounds were defined` if both
`args.bounds` and the bounds of the session are undefined; in each case the
world is returned as it was, so no request is issued and no field of the
session has changed. -/
theorem nextPageUntilAmount_checks (net : Net) (fuel : Nat) (args : Args) (w : World) :
    (args.amount = none →
      nextPageUntilAmount net (fuel + 1) (some args) w =
        some (.rejected (.message "No arguments were given"), w, some (restoreArray args))) ∧
    (args.amount ≠ none → args.query = .undefined → w.client.currentQuery = .undefined →
      nextPageUntilAmount net (fuel + 1) (some args) w =
        some (.rejected (.message "No search query was defined"), w,
          some (restoreArray args))) ∧
    (args.amount ≠ none → ¬ (args.query = .undefined ∧ w.client.currentQuery = .undefined) →
      args.bounds = .undefined → w.client.bounds = .undefined →
      nextPageUntilAmount net (fuel + 1) (some args) w =
        some (.rejected (.message "No search bounds were defined"), w,
          some (restoreArray args))) := by
  refine ⟨?_, ?_, ?_⟩
  · intro ha
    rw [nextPageUntilAmount]
    simp [restoreArray, ha]
  · intro ha hq hc
    rw [nextPageUntilAmount]
    simp [restoreArray, ha, hq, hc]
  · intro ha hq hb hc
    rw [nextPageUntilAmount]
    have hq2 : ¬ ((restoreArray args).query = .undefined ∧ w.client.currentQuery = .undefined) := hq
    have ha2 : ¬ (restoreArray args).amount = none := ha
    have hb2 : (restoreArray args).bounds = .undefined ∧ w.client.bounds = .undefined :=
      ⟨hb, hc⟩
    simp only [ha2, hq2, hb2, if_false, if_true, and_self]

theorem nextPageUntilAmount_checks_witness :
    nextPageUntilAmount emptyNet 1 (some { sampleArgs with amount := none }) configuredWorld =
        some (.rejected (.message "No arguments were given"), configuredWorld,
          some (restoreArray { sampleArgs with amount := none })) ∧
      nextPageUntilAmount emptyNet 1 (some boundsOnlyArgs) freshWorld =
        some (.rejected (.message "No search query was defined"), freshWorld,
          some (restoreArray boundsOnlyArgs)) ∧
      nextPageUntilAmount emptyNet 1
          (some { sampleArgs with bounds := .undefined }) freshWorld =
        some (.rejected (.message "No search bounds were defined"), freshWorld,
          some (restoreArray { sampleArgs with bounds := .undefined })) :=
  ⟨(nextPageUntilAmount_checks emptyNet 0 { sampleArgs with amount := none }
      configuredWorld).1 rfl,
    (nextPageUntilAmount_checks emptyNet 0 boundsOnlyArgs freshWorld).2.1
      (by decide) rfl rfl,
    (nextPageUntilAmount_checks emptyNet 0 { sampleArgs with bounds := .undefined }
      freshWorld).2.2 (by decide) (by decide) rfl rfl⟩

/-- C13: on the path that builds the URL (the argument is not `true`, or the
session has no current cursor), `execute` rejects with `No query was defined`
if `currentQuery` is undefined, and otherwise with `Invalid geobounds
parameter` if the bounds are undefined or lack one of the four fields; in
both cases the world is returned as it was. In particular `execute()` on a
freshly created client rejects. -/
theorem execute_fresh_path_validation (net : Net) (arg : JSVal) (w : World) :
    (¬ (arg = .bool true ∧ w.client.currentPage ≠ .null ∧
        w.client.currentPage ≠ .undefined) →
      (w.client.currentQuery = .undefined →
        execute net arg w = (.rejected (.message "No query was defined"), w)) ∧
      (w.client.currentQuery ≠ .undefined →
        (w.client.bounds = .undefined ∨ ∃ b, w.client.bounds = .object b ∧
          (b.minLat = .undefined ∨ b.maxLat = .undefined ∨
            b.minLon = .undefined ∨ b.maxLon = .undefined)) →
        execute net arg w = (.rejected (.message "Invalid geobounds parameter"), w))) ∧
    execute net .undefined { client := createClient, requests := w.requests } =
      (.rejected (.message "No query was defined"),
        { client := createClient, requests := w.requests }) := by
  constructor
  · intro hp
    rw [execute_fresh net arg w hp]
    constructor
    · intro hq
      simp [hq]
    · intro hq hb
      rcases hb with hb | ⟨b, hb, hf⟩
      · simp [hq, hb]
      · simp [hq, hb, fieldMissing_true b hf]
  · rw [execute_fresh net .undefined _ (by simp)]
    simp [createClient]

theorem execute_fresh_path_validation_witness :
    execute emptyNet .undefined unboundedWorld =
      (.rejected (.message "Invalid geobounds parameter"), unboundedWorld) :=
  ((execute_fresh_path_validation emptyNet .undefined unboundedWorld).1 (by decide)).2
    (by decide) (Or.inl rfl)

/-! ## The factory -/

/-- C15: the client the factory returns starts with `things = []`,
`limit = 10`, and `currentQuery`, `bounds`, `currentPage` and `nextPage` all
undefined. -/
theorem createClient_initial :
    createClient.things = [] ∧ createClient.limit = .num "10" ∧
      createClient.currentQuery = .undefined ∧ createClient.bounds = .undefined ∧
      createClient.currentPage = .undefined ∧ createClient.nextPage = .undefined :=
  ⟨rfl, rfl, rfl, rfl, rfl, rfl⟩

/-! ## Transport failures -/

/-- C14: on a session that passes validation (it follows a cursor, or its
query and all four bound fields are defined) `execute` issues exactly one
request, for one URL; if the transport reports an error, `execute` rejects
with that error; if the status is any value other than 200, it rejects with
the string made of `Bad HTTP Response (`, the status and `)`; it resolves
exactly when the reply has status 200; and in the two failing cases the
client is as it was when `execute` was entered, only the request is
logged. -/
theorem execute_transport_outcomes (net : Net) (arg : JSVal) (w : World)
    (hv : (arg = .bool true ∧ w.client.currentPage ≠ .null ∧
        w.client.currentPage ≠ .undefined) ∨
      (w.client.currentQuery ≠ .undefined ∧ ∃ b, w.client.bounds = .object b ∧
        b.minLat ≠ .undefined ∧ b.maxLat ≠ .undefined ∧
          b.minLon ≠ .undefined ∧ b.maxLon ≠ .undefined)) :
    ∃ url,
      (execute net arg w).2.requests = w.requests ++ [url] ∧
      (∀ err, net w.requests.length url = .error err →
        execute net arg w =
          (.rejected (.transport err), { w with requests := w.requests ++ [url] })) ∧
      (∀ (status : Int) (body : Body),
        net w.requests.length url = .response status body → status ≠ 200 →
        execute net arg w =
          (.rejected (.message ("Bad HTTP Response (" ++ toString status ++ ")")),
            { w with requests := w.requests ++ [url] })) ∧
      ((execute net arg w).1 = .resolved ↔
        ∃ body, net w.requests.length url = .response 200 body) := by
  have hex : ∃ url, execute net arg w = request net url w := by
    by_cases hc : arg = .bool true ∧ w.client.currentPage ≠ .null ∧
        w.client.currentPage ≠ .undefined
    · obtain ⟨rfl, h1, h2⟩ := hc
      exact ⟨_, execute_cursor net w h1 h2⟩
    · rcases hv with hv | ⟨hq, b, hb, hdef⟩
      · exact absurd hv hc
      · refine ⟨.str (freshUrl b w.client.limit w.client.currentQuery), ?_⟩
        exact execute_fresh_valid net arg w b hc hq hb ((fieldMissing_false b).2 hdef)
  obtain ⟨url, he⟩ := hex
  refine ⟨url, by rw [he, request_requests], ?_, ?_, ?_⟩
  · intro err hn
    rw [he]
    unfold request
    rw [hn]
  · intro status body hn hs
    rw [he]
    unfold request
    rw [hn]
    simp [hs]
  · rw [he]
    constructor
    · intro hr
      cases hn : net w.requests.length url with
      | error err =>
        unfold request at hr
        rw [hn] at hr
        simp at hr
      | response status body =>
        by_cases hs : status = 200
        · subst hs
          exact ⟨body, rfl⟩
        · unfold request at hr
          rw [hn] at hr
          simp [hs] at hr
    · rintro ⟨body, hn⟩
      rw [request_ok net url w body hn]

theorem execute_transport_outcomes_witness :
    ∃ url,
      (execute downNet .undefined configuredWorld).2.requests =
        configuredWorld.requests ++ [url] ∧
      execute downNet .undefined configuredWorld =
        (.rejected (.transport "ETIMEDOUT"),
          { configuredWorld with requests := configuredWorld.requests ++ [url] }) ∧
      execute noContentNet .undefined configuredWorld =
        (.rejected (.message "Bad HTTP Response (204)"),
          { configuredWorld with requests := configuredWorld.requests ++ [url] }) :=
  match execute_transport_outcomes downNet .undefined configuredWorld
      (Or.inr ⟨by decide, sampleBounds, rfl, by decide, by decide, by decide, by decide⟩) with
  | ⟨url, h1, h2, _, _⟩ =>
    ⟨url, h1, h2 "ETIMEDOUT" rfl, by
      have h3 : url = .str (freshUrl sampleBounds (.num "10") (.str "temperature")) := by
        have h4 : (execute downNet .undefined configuredWorld).2.requests =
            [.str (freshUrl sampleBounds (.num "10") (.str "temperature"))] := by decide
        rw [h4] at h1
        simpa [configuredWorld] using h1.symm
      subst h3
      decide⟩

/-! ## Calling `nextPageUntilAmount` with `undefined` -/

/-- C16, the code at the failing input: the call with `undefined` throws a
`TypeError` on reading `args.fullThingsArray`, before the check for missing
arguments, and returns no promise; the world is untouched. -/
theorem nextPageUntilAmount_undefined_throws (net : Net) (fuel : Nat) (w : World) :
    nextPageUntilAmount net (fuel + 1) none w = some (.threw "TypeError", w, none) := by
  rw [nextPageUntilAmount]

/-! ## The parameters saved by `nextPageUntilAmount` -/

theorem request_keeps_config (net : Net) (url : JSVal) (w : World) :
    (request net url w).2.client.limit = w.client.limit ∧
      (request net url w).2.client.currentQuery = w.client.currentQuery ∧
      (request net url w).2.client.bounds = w.client.bounds := by
  unfold request
  split
  · exact ⟨rfl, rfl, rfl⟩
  · split <;> exact ⟨rfl, rfl, rfl⟩

theorem execute_keeps_config (net : Net) (arg : JSVal) (w : World) :
    (execute net arg w).2.client.limit = w.client.limit ∧
      (execute net arg w).2.client.currentQuery = w.client.currentQuery ∧
      (execute net arg w).2.client.bounds = w.client.bounds := by
  rcases execute_cases net arg w with h | h | h | ⟨url, h⟩
  · rw [h]; exact ⟨rfl, rfl, rfl⟩
  · rw [h]; exact ⟨rfl, rfl, rfl⟩
  · rw [h]; exact ⟨rfl, rfl, rfl⟩
  · rw [h]; exact request_keeps_config net url w

theorem next_keeps_config (net : Net) (w : World) :
    (next net w).2.client.limit = w.client.limit ∧
      (next net w).2.client.currentQuery = w.client.currentQuery ∧
      (next net w).2.client.bounds = w.client.bounds := by
  unfold next
  exact execute_keeps_config net _ _

/-- After `next()` on the session with the parameters saved, the limit is 1
and query and bounds are those of the arguments. -/
theorem next_saved_config (net : Net) (args : Args) (w w3 : World) (o : Outcome)
    (hn : next net (saveParameters (restoreArray args) w) = (o, w3)) :
    w3.client.limit = .num "1" ∧ w3.client.currentQuery = args.query ∧
      w3.client.bounds = args.bounds := by
  have h := next_keeps_config net (saveParameters (restoreArray args) w)
  rw [hn] at h
  exact h

/-- A session that already holds the saved parameters still holds them when
`nextPageUntilAmount` returns. -/
theorem nextPageUntilAmount_keeps_saved (net : Net) (fuel : Nat) (args : Args) (w : World)
    (r : Outcome × World × Option Args)
    (h0 : w.client.limit = .num "1" ∧ w.client.currentQuery = args.query ∧
      w.client.bounds = args.bounds)
    (h : nextPageUntilAmount net fuel (some args) w = some r) :
    r.2.1.client.limit = .num "1" ∧ r.2.1.client.currentQuery = args.query ∧
      r.2.1.client.bounds = args.bounds := by
  induction fuel generalizing args w with
  | zero => simp [nextPageUntilAmount] at h
  | succ n ih =>
    rcases nextPageUntilAmount_iter net n args w r h with
      ⟨_, hr⟩ | ⟨_, _, _, hr⟩ | ⟨_, _, _, hr⟩ | ⟨_, reason, w3, hn, hr⟩ |
      ⟨_, w3, hn, _, hr⟩ | ⟨_, w3, hn, _, hcase⟩
    · rw [hr]; exact h0
    · rw [hr]; exact h0
    · rw [hr]; exact h0
    · rw [hr]; exact next_saved_config net args w w3 _ hn
    · rw [hr]; exact next_saved_config net args w w3 _ hn
    · have hc := next_saved_config net args w w3 _ hn
      rcases hcase with ⟨_, hr⟩ | ⟨_, hrec⟩
      · rw [hr]; exact hc
      · have h2 := fun hc2 => ih _ w3 hc2 hrec
        exact h2 hc

/-- C17: when the arguments pass the three checks, `nextPageUntilAmount` saves
`currentQuery := args.query`, `bounds := args.bounds` (also when these are
undefined) and `limit := 1` to the session before it fetches, and nothing
restores them: however the call ends, resolved or rejected, the session then
has `limit = 1`, whatever it was before, and the query and bounds of the
arguments. -/
theorem nextPageUntilAmount_saves_parameters (net : Net) (fuel : Nat) (args : Args)
    (w : World) (r : Outcome × World × Option Args)
    (ha : args.amount ≠ none)
    (hq : ¬ (args.query = .undefined ∧ w.client.currentQuery = .undefined))
    (hb : ¬ (args.bounds = .undefined ∧ w.client.bounds = .undefined))
    (h : nextPageUntilAmount net fuel (some args) w = some r) :
    r.2.1.client.limit = .num "1" ∧ r.2.1.client.currentQuery = args.query ∧
      r.2.1.client.bounds = args.bounds := by
  cases fuel with
  | zero => simp [nextPageUntilAmount] at h
  | succ n =>
    rcases nextPageUntilAmount_iter net n args w r h with
      ⟨h1, _⟩ | ⟨_, h1, h2, _⟩ | ⟨_, h1, h2, _⟩ | ⟨_, reason, w3, hn, hr⟩ |
      ⟨_, w3, hn, _, hr⟩ | ⟨_, w3, hn, _, hcase⟩
    · exact absurd h1 ha
    · exact absurd ⟨h1, h2⟩ hq
    · exact absurd ⟨h1, h2⟩ hb
    · rw [hr]
      exact next_saved_config net args w w3 _ hn
    · rw [hr]
      exact next_saved_config net args w w3 _ hn
    · have hc := next_saved_config net args w w3 _ hn
      rcases hcase with ⟨_, hr⟩ | ⟨_, hrec⟩
      · rw [hr]
        exact hc
      · have h2 := fun hc2 => nextPageUntilAmount_keeps_saved net n _ w3 r hc2 hrec
        exact h2 hc

theorem nextPageUntilAmount_saves_parameters_witness :
    sampleRun.2.1.client.limit = .num "1" ∧
      sampleRun.2.1.client.currentQuery = sampleArgs.query ∧
      sampleRun.2.1.client.bounds = sampleArgs.bounds ∧
      freshWorld.client.limit = .num "10" :=
  have h := nextPageUntilAmount_saves_parameters pagedNet 5 sampleArgs freshWorld sampleRun
    (by decide) (by decide) (by decide) (by decide)
  ⟨h.1, h.2.1, h.2.2, rfl⟩

/-! ## Evaluating one entry into `nextPageUntilAmount` -/

theorem nextPageUntilAmount_of_rejected (net : Net) (fuel : Nat) (args : Args) (w w3 : World)
    (reason : Rejection) (ha : args.amount ≠ none)
    (hq : ¬ (args.query = .undefined ∧ w.client.currentQuery = .undefined))
    (hb : ¬ (args.bounds = .undefined ∧ w.client.bounds = .undefined))
    (hn : next net (saveParameters (restoreArray args) w) = (.rejected reason, w3)) :
    nextPageUntilAmount net (fuel + 1) (some args) w =
      some (.rejected reason, w3, some (restoreArray args)) := by
  rw [nextPageUntilAmount]
  have ha2 : ¬ (restoreArray args).amount = none := ha
  have hq2 : ¬ ((restoreArray args).query = .undefined ∧ w.client.currentQuery = .undefined) :=
    hq
  have hb2 : ¬ ((restoreArray args).bounds = .undefined ∧ w.client.bounds = .undefined) := hb
  simp only [ha2, hq2, hb2, if_false]
  rw [hn]

theorem nextPageUntilAmount_of_throw (net : Net) (fuel : Nat) (args : Args) (w w3 : World)
    (ha : args.amount ≠ none)
    (hq : ¬ (args.query = .undefined ∧ w.client.currentQuery = .undefined))
    (hb : ¬ (args.bounds = .undefined ∧ w.client.bounds = .undefined))
    (hn : next net (saveParameters (restoreArray args) w) = (.resolved, w3))
    (hf : filterThings args w3.client.things = none) :
    nextPageUntilAmount net (fuel + 1) (some args) w =
      some (.rejected (.thrown "TypeError"), w3, some (restoreArray args)) := by
  rw [nextPageUntilAmount]
  have ha2 : ¬ (restoreArray args).amount = none := ha
  have hq2 : ¬ ((restoreArray args).query = .undefined ∧ w.client.currentQuery = .undefined) :=
    hq
  have hb2 : ¬ ((restoreArray args).bounds = .undefined ∧ w.client.bounds = .undefined) := hb
  simp only [ha2, hq2, hb2, if_false]
  rw [hn]
  simp only [filterThings_congr (restoreArray args) args, hf]

theorem nextPageUntilAmount_of_stop (net : Net) (fuel : Nat) (args : Args) (w w3 : World)
    (ha : args.amount ≠ none)
    (hq : ¬ (args.query = .undefined ∧ w.client.currentQuery = .undefined))
    (hb : ¬ (args.bounds = .undefined ∧ w.client.bounds = .undefined))
    (hn : next net (saveParameters (restoreArray args) w) = (.resolved, w3))
    (hf : filterThings args w3.client.things ≠ none)
    (hs : args.amount.getD 0 ≤
        ((args.fullThingsArray.getD [] ++
          w3.client.things.filter (accepted args)).length : Int) ∨
      w3.client.nextPage = .null) :
    nextPageUntilAmount net (fuel + 1) (some args) w =
      some (.resolved,
        { w3 with
          client :=
            { w3.client with
              things := args.fullThingsArray.getD [] ++
                w3.client.things.filter (accepted args) } },
        some { args with
          fullThingsArray := some (args.fullThingsArray.getD [] ++
            w3.client.things.filter (accepted args)) }) := by
  obtain ⟨kept, hk⟩ := Option.ne_none_iff_exists'.1 hf
  have hkept := filterThings_eq_filter args _ _ hk
  subst hkept
  rw [nextPageUntilAmount]
  have ha2 : ¬ (restoreArray args).amount = none := ha
  have hq2 : ¬ ((restoreArray args).query = .undefined ∧ w.client.currentQuery = .undefined) :=
    hq
  have hb2 : ¬ ((restoreArray args).bounds = .undefined ∧ w.client.bounds = .undefined) := hb
  simp only [ha2, hq2, hb2, if_false]
  rw [hn]
  simp only [filterThings_congr (restoreArray args) args, hk]
  have hs2 : (restoreArray args).amount.getD 0 ≤
      (((restoreArray args).fullThingsArray.getD [] ++
        w3.client.things.filter (accepted args)).length : Int) ∨
      w3.client.nextPage = .null := hs
  simp only [hs2, if_true]
  rfl

theorem nextPageUntilAmount_of_continue (net : Net) (fuel : Nat) (args : Args) (w w3 : World)
    (ha : args.amount ≠ none)
    (hq : ¬ (args.query = .undefined ∧ w.client.currentQuery = .undefined))
    (hb : ¬ (args.bounds = .undefined ∧ w.client.bounds = .undefined))
    (hn : next net (saveParameters (restoreArray args) w) = (.resolved, w3))
    (hf : filterThings args w3.client.things ≠ none)
    (hs : ¬ (args.amount.getD 0 ≤
        ((args.fullThingsArray.getD [] ++
          w3.client.things.filter (accepted args)).length : Int) ∨
      w3.client.nextPage = .null)) :
    nextPageUntilAmount net (fuel + 1) (some args) w =
      nextPageUntilAmount net fuel
        (some { args with
          fullThingsArray := some (args.fullThingsArray.getD [] ++
            w3.client.things.filter (accepted args)) }) w3 := by
  obtain ⟨kept, hk⟩ := Option.ne_none_iff_exists'.1 hf
  have hkept := filterThings_eq_filter args _ _ hk
  subst hkept
  rw [nextPageUntilAmount]
  have ha2 : ¬ (restoreArray args).amount = none := ha
  have hq2 : ¬ ((restoreArray args).query = .undefined ∧ w.client.currentQuery = .undefined) :=
    hq
  have hb2 : ¬ ((restoreArray args).bounds = .undefined ∧ w.client.bounds = .undefined) := hb
  simp only [ha2, hq2, hb2, if_false]
  rw [hn]
  simp only [filterThings_congr (restoreArray args) args, hk]
  have hs2 : ¬ ((restoreArray args).amount.getD 0 ≤
      (((restoreArray args).fullThingsArray.getD [] ++
        w3.client.things.filter (accepted args)).length : Int) ∨
      w3.client.nextPage = .null) := hs
  simp only [hs2, if_false]
  rfl

/-! ## Arguments that rely on the query or bounds of the session -/

theorem next_requests_length (net : Net) (w : World) :
    (next net w).2.requests.length ≤ w.requests.length + 1 := by
  unfold next
  rcases execute_cases net (.bool true)
      { w with client := { w.client with currentPage := w.client.nextPage } } with
    h | h | h | ⟨u, h⟩
  · rw [h]; simp
  · rw [h]; simp
  · rw [h]; simp
  · rw [h, request_requests]; simp

/-- Without a cursor `next()` is the validation of `execute` followed by the
request for the fresh URL. -/
theorem next_no_cursor (net : Net) (w : World)
    (h : w.client.nextPage = .null ∨ w.client.nextPage = .undefined) :
    next net w =
      if w.client.currentQuery = .undefined then
        (.rejected (.message "No query was defined"),
          { w with client := { w.client with currentPage := w.client.nextPage } })
      else
        match w.client.bounds with
        | .undefined =>
          (.rejected (.message "Invalid geobounds parameter"),
            { w with client := { w.client with currentPage := w.client.nextPage } })
        | .null =>
          (.rejected (.thrown "TypeError"),
            { w with client := { w.client with currentPage := w.client.nextPage } })
        | .object b =>
          if fieldMissing b then
            (.rejected (.message "Invalid geobounds parameter"),
              { w with client := { w.client with currentPage := w.client.nextPage } })
          else
            request net (.str (freshUrl b w.client.limit w.client.currentQuery))
              { w with client := { w.client with currentPage := w.client.nextPage } } := by
  unfold next
  rw [execute_fresh net (.bool true) _ (by
    rintro ⟨_, h1, h2⟩
    rcases h with h | h
    · exact h1 h
    · exact h2 h)]

theorem check_query_fails (net : Net) (fuel : Nat) (args : Args) (w : World)
    (ha : args.amount ≠ none) (hq : args.query = .undefined)
    (hc : w.client.currentQuery = .undefined) :
    nextPageUntilAmount net (fuel + 1) (some args) w =
      some (.rejected (.message "No search query was defined"), w,
        some (restoreArray args)) := by
  rw [nextPageUntilAmount]
  simp [restoreArray, ha, hq, hc]

theorem check_bounds_fails (net : Net) (fuel : Nat) (args : Args) (w : World)
    (ha : args.amount ≠ none) (hq : args.query ≠ .undefined)
    (hb : args.bounds = .undefined) (hc : w.client.bounds = .undefined) :
    nextPageUntilAmount net (fuel + 1) (some args) w =
      some (.rejected (.message "No search bounds were defined"), w,
        some (restoreArray args)) := by
  rw [nextPageUntilAmount]
  simp [restoreArray, ha, hq, hb, hc]

/-- The filter runs through a page without throwing exactly when no item of
the page has a channel whose id is `hasOwnProperty`. -/
theorem filterThings_page_safe (args : Args) (data : List RawData) :
    filterThings args (data.map Thing) ≠ none ↔
      ∀ raw ∈ data, ∀ c ∈ raw.attributes.channels, c.id.toStr ≠ "hasOwnProperty" := by
  constructor
  · intro h raw hraw c hc hk
    apply h
    refine filterThings_throws args _ (Thing raw) (List.mem_map.2 ⟨raw, hraw, rfl⟩) ?_
    rw [matchesUnit_throws_iff, mem_ownKeys_Thing]
    exact ⟨by decide, c, hc, hk⟩
  · intro h
    rw [filterThings_of_safe args _ ?_]
    · simp
    · intro t ht hnone
      obtain ⟨raw, hraw, rfl⟩ := List.mem_map.1 ht
      rw [matchesUnit_throws_iff, mem_ownKeys_Thing] at hnone
      obtain ⟨_, c, hc, hk⟩ := hnone
      exact h raw hraw c hc hk

/-- The shared shape of both halves of C18: when the second entry into the
method is known to reject with `msg`, the call makes at most one request; a
rejection of the first `next()` is the rejection of the call; it resolves
only if the filter passes the first page and the stop condition holds; and
when the filter passes the page and the stop condition fails, the second
entry rejects with `msg`. -/
theorem single_fetch (net : Net) (n : Nat) (args : Args) (w : World) (msg : String)
    (ha : args.amount ≠ none)
    (hq : ¬ (args.query = .undefined ∧ w.client.currentQuery = .undefined))
    (hb : ¬ (args.bounds = .undefined ∧ w.client.bounds = .undefined))
    (hfail : ∀ (w3 : World) (full : List ParsedData),
      next net (saveParameters (restoreArray args) w) = (.resolved, w3) →
      nextPageUntilAmount net (n + 1) (some { args with fullThingsArray := some full }) w3 =
        some (.rejected (.message msg), w3,
          some (restoreArray { args with fullThingsArray := some full }))) :
    ∃ r, nextPageUntilAmount net (n + 2) (some args) w = some r ∧
      r.2.1.requests = (next net (saveParameters (restoreArray args) w)).2.requests ∧
      (∀ reason, (next net (saveParameters (restoreArray args) w)).1 = .rejected reason →
        r.1 = .rejected reason) ∧
      (r.1 = .resolved →
        ∃ w3, next net (saveParameters (restoreArray args) w) = (.resolved, w3) ∧
          filterThings args w3.client.things ≠ none ∧
          (args.amount.getD 0 ≤
              ((args.fullThingsArray.getD [] ++
                w3.client.things.filter (accepted args)).length : Int) ∨
            w3.client.nextPage = .null)) ∧
      (∀ w3, next net (saveParameters (restoreArray args) w) = (.resolved, w3) →
        filterThings args w3.client.things ≠ none →
        ¬ (args.amount.getD 0 ≤
              ((args.fullThingsArray.getD [] ++
                w3.client.things.filter (accepted args)).length : Int) ∨
            w3.client.nextPage = .null) →
        r.1 = .rejected (.message msg)) ∧
      (∀ w3, next net (saveParameters (restoreArray args) w) = (.resolved, w3) →
        filterThings args w3.client.things ≠ none →
        (args.amount.getD 0 ≤
              ((args.fullThingsArray.getD [] ++
                w3.client.things.filter (accepted args)).length : Int) ∨
            w3.client.nextPage = .null) →
        r.1 = .resolved) := by
  cases hn : next net (saveParameters (restoreArray args) w) with
  | mk o w3 =>
    cases o with
    | resolved =>
      by_cases hf : filterThings args w3.client.things = none
      · refine ⟨_, nextPageUntilAmount_of_throw net (n + 1) args w w3 ha hq hb hn hf, rfl,
          ?_, ?_, ?_, ?_⟩
        · intro reason hr
          simp at hr
        · intro hr
          simp at hr
        · intro w4 h4 hf4
          simp only [Prod.mk.injEq, true_and] at h4
          subst h4
          exact absurd hf hf4
        · intro w4 h4 hf4
          simp only [Prod.mk.injEq, true_and] at h4
          subst h4
          exact absurd hf hf4
      · by_cases hs : args.amount.getD 0 ≤
            ((args.fullThingsArray.getD [] ++
              w3.client.things.filter (accepted args)).length : Int) ∨
            w3.client.nextPage = .null
        · refine ⟨_, nextPageUntilAmount_of_stop net (n + 1) args w w3 ha hq hb hn hf hs, rfl,
            ?_, ?_, ?_, ?_⟩
          · intro reason hr
            simp at hr
          · intro _
            exact ⟨w3, rfl, hf, hs⟩
          · intro w4 h4 _ hns
            simp only [Prod.mk.injEq, true_and] at h4
            subst h4
            exact absurd hs hns
          · intro _ _ _ _
            rfl
        · refine ⟨_, (nextPageUntilAmount_of_continue net (n + 1) args w w3 ha hq hb hn hf
            hs).trans (hfail w3 _ hn), rfl, ?_, ?_, ?_, ?_⟩
          · intro reason hr
            simp at hr
          · intro hr
            simp at hr
          · intro _ _ _ _
            rfl
          · intro w4 h4 _ hs4
            simp only [Prod.mk.injEq, true_and] at h4
            subst h4
            exact absurd hs4 hs
    | rejected reason =>
      refine ⟨_, nextPageUntilAmount_of_rejected net (n + 1) args w w3 reason ha hq hb hn, rfl,
        ?_, ?_, ?_, ?_⟩
      · intro reason2 hr
        simpa using hr
      · intro hr
        simp at hr
      · intro w4 h4
        simp at h4
      · intro w4 h4
        simp at h4
    | threw e => exact absurd hn (execute_not_threw net _ _ w3 e)

/-- The cursor case of `single_fetch`, in terms of the page that answers the
request for the cursor. -/
theorem single_fetch_cursor (net : Net) (n : Nat) (args : Args) (w : World) (msg : String)
    (amount : Int) (ha : args.amount = some amount)
    (hq : ¬ (args.query = .undefined ∧ w.client.currentQuery = .undefined))
    (hb : ¬ (args.bounds = .undefined ∧ w.client.bounds = .undefined))
    (hfail : ∀ (w3 : World) (full : List ParsedData),
      next net (saveParameters (restoreArray args) w) = (.resolved, w3) →
      nextPageUntilAmount net (n + 1) (some { args with fullThingsArray := some full }) w3 =
        some (.rejected (.message msg), w3,
          some (restoreArray { args with fullThingsArray := some full })))
    (h1 : w.client.nextPage ≠ .null) (h2 : w.client.nextPage ≠ .undefined) :
    ∃ r, nextPageUntilAmount net (n + 2) (some args) w = some r ∧
      r.2.1.requests = w.requests ++ [w.client.nextPage] ∧
      (r.1 = .resolved →
        ∃ body, net w.requests.length w.client.nextPage = .response 200 body ∧
          (∀ raw ∈ body.data, ∀ c ∈ raw.attributes.channels,
            c.id.toStr ≠ "hasOwnProperty") ∧
          (amount ≤ ((args.fullThingsArray.getD [] ++
              (body.data.map Thing).filter (accepted args)).length : Int) ∨
            body.links.next.orElse .null = .null)) ∧
      (∀ body, net w.requests.length w.client.nextPage = .response 200 body →
        (∀ raw ∈ body.data, ∀ c ∈ raw.attributes.channels,
          c.id.toStr ≠ "hasOwnProperty") →
        ((amount ≤ ((args.fullThingsArray.getD [] ++
              (body.data.map Thing).filter (accepted args)).length : Int) ∨
            body.links.next.orElse .null = .null) → r.1 = .resolved) ∧
        (((args.fullThingsArray.getD [] ++
              (body.data.map Thing).filter (accepted args)).length : Int) < amount →
          body.links.next.orElse .null ≠ .null →
          r.1 = .rejected (.message msg))) := by
  have ha2 : args.amount ≠ none := by rw [ha]; simp
  have hget : args.amount.getD 0 = amount := by rw [ha]; rfl
  obtain ⟨r, hr, hw, _, hres, hcont, hstop⟩ := single_fetch net n args w msg ha2 hq hb hfail
  have hnx := next_cursor net (saveParameters (restoreArray args) w) h1 h2
  have hreq : (next net (saveParameters (restoreArray args) w)).2.requests =
      w.requests ++ [w.client.nextPage] := by
    rw [hnx, request_requests]
    rfl
  refine ⟨r, hr, hw.trans hreq, ?_, ?_⟩
  · intro hres1
    obtain ⟨w3, hn3, hf3, hs3⟩ := hres hres1
    rw [hnx] at hn3
    obtain ⟨body, hbody, hw3⟩ := request_resolved net _ _ w3 hn3
    refine ⟨body, hbody, ?_, ?_⟩
    · rw [hw3] at hf3
      exact (filterThings_page_safe args body.data).1 hf3
    · rw [hget, hw3] at hs3
      exact hs3
  · intro body hbody hsafe
    have hn3 := hnx.trans (request_ok net _ _ body hbody)
    have hf3 := (filterThings_page_safe args body.data).2 hsafe
    constructor
    · intro hs
      refine hstop _ hn3 hf3 ?_
      rw [hget]
      exact hs
    · intro hlt hne
      refine hcont _ hn3 hf3 ?_
      rw [hget]
      intro hs
      rcases hs with hs | hs
      · exact absurd hs (not_le.2 hlt)
      · exact hne hs

/-- C18, the claim as stated fails: the session has a query and a cursor, the
arguments carry an amount and bounds but no query, and the page that answers
the cursor has a next link and leaves the accumulated list shorter than the
amount; its thing has a channel whose id is `hasOwnProperty`, so the filter
throws and the call rejects with the `TypeError` after its one request, not
with `No search query was defined`. -/
theorem nextPageUntilAmount_shadow_counterexample :
    cursorWorld.client.currentQuery = .str "temperature" ∧
      boundsOnlyArgs.query = .undefined ∧ boundsOnlyArgs.amount = some 3 ∧
      boundsOnlyArgs.fullThingsArray = none ∧
      serverNet shadowPages 0 (.str "cursor") =
        .response 200 (shadowPages (.str "cursor")) ∧
      (shadowPages (.str "cursor")).links.next = .str "more" ∧
      (nextPageUntilAmount (serverNet shadowPages) 2 (some boundsOnlyArgs) cursorWorld).map
          (fun r => (r.1, r.2.1.requests)) =
        some (.rejected (.thrown "TypeError"), [.str "cursor"]) := by
  refine ⟨rfl, rfl, rfl, rfl, rfl, rfl, by decide⟩

/-- C18, amended: with arguments that carry an amount and bounds but no
query, on a session that has a query, `nextPageUntilAmount` never makes a
second request. Without a cursor the first fetch rejects with
`No query was defined` and no request is made; with a cursor the only request
is the one for the cursor, the call resolves only if no item of the first
page has a channel whose id is `hasOwnProperty` and the page satisfies the
stop condition, and for such a page, when it has a next link and the
accumulated list is shorter than the amount, the second entry rejects with
`No search query was defined`. The same holds for arguments without bounds on
a session that has bounds, with `No search bounds were defined` (and, without
a cursor, with the geobounds error of `execute`). -/
theorem nextPageUntilAmount_session_fallback (net : Net) (n : Nat) (args : Args) (w : World)
    (amount : Int) (ha : args.amount = some amount) :
    (args.query = .undefined → args.bounds ≠ .undefined → w.client.currentQuery ≠ .undefined →
      ∃ r, nextPageUntilAmount net (n + 2) (some args) w = some r ∧
        r.2.1.requests.length ≤ w.requests.length + 1 ∧
        (w.client.nextPage = .null ∨ w.client.nextPage = .undefined →
          r.1 = .rejected (.message "No query was defined") ∧
          r.2.1.requests = w.requests) ∧
        (w.client.nextPage ≠ .null → w.client.nextPage ≠ .undefined →
          r.2.1.requests = w.requests ++ [w.client.nextPage] ∧
          (r.1 = .resolved →
            ∃ body, net w.requests.length w.client.nextPage = .response 200 body ∧
              (∀ raw ∈ body.data, ∀ c ∈ raw.attributes.channels,
                c.id.toStr ≠ "hasOwnProperty") ∧
              (amount ≤ ((args.fullThingsArray.getD [] ++
                  (body.data.map Thing).filter (accepted args)).length : Int) ∨
                body.links.next.orElse .null = .null)) ∧
          (∀ body, net w.requests.length w.client.nextPage = .response 200 body →
            (∀ raw ∈ body.data, ∀ c ∈ raw.attributes.channels,
              c.id.toStr ≠ "hasOwnProperty") →
            ((amount ≤ ((args.fullThingsArray.getD [] ++
                  (body.data.map Thing).filter (accepted args)).length : Int) ∨
                body.links.next.orElse .null = .null) → r.1 = .resolved) ∧
            (((args.fullThingsArray.getD [] ++
                  (body.data.map Thing).filter (accepted args)).length : Int) < amount →
              body.links.next.orElse .null ≠ .null →
              r.1 = .rejected (.message "No search query was defined"))))) ∧
    (args.bounds = .undefined → args.query ≠ .undefined → w.client.bounds ≠ .undefined →
      ∃ r, nextPageUntilAmount net (n + 2) (some args) w = some r ∧
        r.2.1.requests.length ≤ w.requests.length + 1 ∧
        (w.client.nextPage = .null ∨ w.client.nextPage = .undefined →
          r.1 = .rejected (.message "Invalid geobounds parameter") ∧
          r.2.1.requests = w.requests) ∧
        (w.client.nextPage ≠ .null → w.client.nextPage ≠ .undefined →
          r.2.1.requests = w.requests ++ [w.client.nextPage] ∧
          (r.1 = .resolved →
            ∃ body, net w.requests.length w.client.nextPage = .response 200 body ∧
              (∀ raw ∈ body.data, ∀ c ∈ raw.attributes.channels,
                c.id.toStr ≠ "hasOwnProperty") ∧
              (amount ≤ ((args.fullThingsArray.getD [] ++
                  (body.data.map Thing).filter (accepted args)).length : Int) ∨
                body.links.next.orElse .null = .null)) ∧
          (∀ body, net w.requests.length w.client.nextPage = .response 200 body →
            (∀ raw ∈ body.data, ∀ c ∈ raw.attributes.channels,
              c.id.toStr ≠ "hasOwnProperty") →
            ((amount ≤ ((args.fullThingsArray.getD [] ++
                  (body.data.map Thing).filter (accepted args)).length : Int) ∨
                body.links.next.orElse .null = .null) → r.1 = .resolved) ∧
            (((args.fullThingsArray.getD [] ++
                  (body.data.map Thing).filter (accepted args)).length : Int) < amount →
              body.links.next.orElse .null ≠ .null →
              r.1 = .rejected (.message "No search bounds were defined"))))) := by
  have ha2 : args.amount ≠ none := by rw [ha]; simp
  constructor
  · intro hq hb hc
    have hq2 : ¬ (args.query = .undefined ∧ w.client.currentQuery = .undefined) :=
      fun h => hc h.2
    have hb2 : ¬ (args.bounds = .undefined ∧ w.client.bounds = .undefined) := fun h => hb h.1
    have hfail : ∀ (w3 : World) (full : List ParsedData),
        next net (saveParameters (restoreArray args) w) = (.resolved, w3) →
        nextPageUntilAmount net (n + 1) (some { args with fullThingsArray := some full }) w3 =
          some (.rejected (.message "No search query was defined"), w3,
            some (restoreArray { args with fullThingsArray := some full })) := by
      intro w3 full hn
      have hcfg := next_saved_config net args w w3 _ hn
      exact check_query_fails net n _ w3 ha2 hq (hcfg.2.1.trans hq)
    by_cases hcur : w.client.nextPage ≠ .null ∧ w.client.nextPage ≠ .undefined
    · obtain ⟨r, hr, hreq, hres, hbody⟩ := single_fetch_cursor net n args w _ amount ha hq2 hb2
        hfail hcur.1 hcur.2
      refine ⟨r, hr, by rw [hreq]; simp, ?_, fun _ _ => ⟨hreq, hres, hbody⟩⟩
      intro hno
      rcases hno with hno | hno
      · exact absurd hno hcur.1
      · exact absurd hno hcur.2
    · have hno : w.client.nextPage = .null ∨ w.client.nextPage = .undefined := by
        by_contra hx
        push_neg at hx
        exact hcur hx
      obtain ⟨r, hr, hw, hrej, _, _, _⟩ := single_fetch net n args w _ ha2 hq2 hb2 hfail
      have hlen : r.2.1.requests.length ≤ w.requests.length + 1 := by
        rw [hw]
        exact next_requests_length net (saveParameters (restoreArray args) w)
      have hnx := next_no_cursor net (saveParameters (restoreArray args) w) hno
      have hcq : (saveParameters (restoreArray args) w).client.currentQuery = .undefined := hq
      rw [if_pos hcq] at hnx
      have hr1 := hrej _ (by rw [hnx])
      refine ⟨r, hr, hlen, ?_, ?_⟩
      · intro _
        refine ⟨hr1, ?_⟩
        rw [hw, hnx]
        rfl
      · intro h1 h2
        exact absurd ⟨h1, h2⟩ hcur
  · intro hb hq hc
    have hq2 : ¬ (args.query = .undefined ∧ w.client.currentQuery = .undefined) :=
      fun h => hq h.1
    have hb2 : ¬ (args.bounds = .undefined ∧ w.client.bounds = .undefined) := fun h => hc h.2
    have hfail : ∀ (w3 : World) (full : List ParsedData),
        next net (saveParameters (restoreArray args) w) = (.resolved, w3) →
        nextPageUntilAmount net (n + 1) (some { args with fullThingsArray := some full }) w3 =
          some (.rejected (.message "No search bounds were defined"), w3,
            some (restoreArray { args with fullThingsArray := some full })) := by
      intro w3 full hn
      have hcfg := next_saved_config net args w w3 _ hn
      exact check_bounds_fails net n _ w3 ha2 hq hb (hcfg.2.2.trans hb)
    by_cases hcur : w.client.nextPage ≠ .null ∧ w.client.nextPage ≠ .undefined
    · obtain ⟨r, hr, hreq, hres, hbody⟩ := single_fetch_cursor net n args w _ amount ha hq2 hb2
        hfail hcur.1 hcur.2
      refine ⟨r, hr, by rw [hreq]; simp, ?_, fun _ _ => ⟨hreq, hres, hbody⟩⟩
      intro hno
      rcases hno with hno | hno
      · exact absurd hno hcur.1
      · exact absurd hno hcur.2
    · have hno : w.client.nextPage = .null ∨ w.client.nextPage = .undefined := by
        by_contra hx
        push_neg at hx
        exact hcur hx
      obtain ⟨r, hr, hw, hrej, _, _, _⟩ := single_fetch net n args w _ ha2 hq2 hb2 hfail
      have hlen : r.2.1.requests.length ≤ w.requests.length + 1 := by
        rw [hw]
        exact next_requests_length net (saveParameters (restoreArray args) w)
      have hnx := next_no_cursor net (saveParameters (restoreArray args) w) hno
      have hcq : ¬ (saveParameters (restoreArray args) w).client.currentQuery = .undefined := hq
      have hcb : (saveParameters (restoreArray args) w).client.bounds = .undefined := hb
      rw [if_neg hcq, hcb] at hnx
      have hr1 := hrej _ (by rw [hnx])
      refine ⟨r, hr, hlen, ?_, ?_⟩
      · intro _
        refine ⟨hr1, ?_⟩
        rw [hw, hnx]
        rfl
      · intro h1 h2
        exact absurd ⟨h1, h2⟩ hcur

theorem nextPageUntilAmount_session_fallback_witness :
    ∃ r, nextPageUntilAmount pagedNet 2 (some boundsOnlyArgs) cursorWorld = some r ∧
      r.2.1.requests.length ≤ cursorWorld.requests.length + 1 ∧
      r.2.1.requests = cursorWorld.requests ++ [cursorWorld.client.nextPage] ∧
      r.1 = .rejected (.message "No search query was defined") :=
  match (nextPageUntilAmount_session_fallback pagedNet 0 boundsOnlyArgs cursorWorld 3 rfl).1
      rfl (by decide) (by decide) with
  | ⟨r, h1, h2, _, h4⟩ =>
    ⟨r, h1, h2, (h4 (by decide) (by decide)).1,
      ((h4 (by decide) (by decide)).2.2 _ rfl (by decide)).2 (by decide) (by decide)⟩

/-! ## The URLs requested by `nextPageUntilAmount` -/

theorem orElse_null_ne_null (v : JSVal) (h : v.orElse .null ≠ .null) :
    v.truthy = true ∧ v.orElse .null = v := by
  unfold JSVal.orElse at h ⊢
  by_cases ht : v.truthy = true
  · simp [ht]
  · simp [ht] at h

/-- The request `next()` makes, if any: the cursor when the session holds
one, and otherwise, after validation, the fresh URL. -/
theorem next_first_request (net : Net) (w : World) :
    ((w.client.nextPage = .null ∨ w.client.nextPage = .undefined) ∧
      (next net w).2.requests = w.requests ∧ ∃ reason, (next net w).1 = .rejected reason) ∨
    ∃ u, (next net w).2.requests = w.requests ++ [u] ∧
      next net w =
        request net u { w with client := { w.client with currentPage := w.client.nextPage } } ∧
      (w.client.nextPage ≠ .null → w.client.nextPage ≠ .undefined → u = w.client.nextPage) ∧
      (w.client.nextPage = .null ∨ w.client.nextPage = .undefined →
        ∃ b, w.client.bounds = .object b ∧
          u = .str (freshUrl b w.client.limit w.client.currentQuery)) := by
  by_cases hcur : w.client.nextPage ≠ .null ∧ w.client.nextPage ≠ .undefined
  · right
    have hn := next_cursor net w hcur.1 hcur.2
    refine ⟨w.client.nextPage, ?_, hn, fun _ _ => rfl, ?_⟩
    · rw [hn, request_requests]
    · intro hno
      rcases hno with hno | hno
      · exact absurd hno hcur.1
      · exact absurd hno hcur.2
  · have hno : w.client.nextPage = .null ∨ w.client.nextPage = .undefined := by
      by_contra hx
      push_neg at hx
      exact hcur hx
    have hn := next_no_cursor net w hno
    by_cases hq : w.client.currentQuery = .undefined
    · left
      rw [if_pos hq] at hn
      exact ⟨hno, by rw [hn], ⟨_, by rw [hn]⟩⟩
    · rw [if_neg hq] at hn
      cases hb : w.client.bounds with
      | undefined =>
        left
        rw [hb] at hn
        exact ⟨hno, by rw [hn], ⟨_, by rw [hn]⟩⟩
      | null =>
        left
        rw [hb] at hn
        exact ⟨hno, by rw [hn], ⟨_, by rw [hn]⟩⟩
      | object b =>
        rw [hb] at hn
        by_cases hm : fieldMissing b = true
        · left
          simp only [hm, if_true] at hn
          exact ⟨hno, by rw [hn], ⟨_, by rw [hn]⟩⟩
        · right
          have hm2 : fieldMissing b = false := by simpa using hm
          simp only [hm2, Bool.false_eq_true, if_false] at hn
          refine ⟨.str (freshUrl b w.client.limit w.client.currentQuery), ?_, hn, ?_, ?_⟩
          · rw [hn, request_requests]
          · intro h1 h2
            exact absurd ⟨h1, h2⟩ hcur
          · intro _
            exact ⟨b, rfl, rfl⟩

/-- C19: the requests of one call of `nextPageUntilAmount` form a chain: every
request after the first asks for the `links.next` of the page that answered
the request before it. On a session that holds a cursor `u` (a `nextPage`
that is neither `null` nor `undefined`) the first request, which is made
whenever the arguments pass the checks, is `u` verbatim, so no URL of the call
is built from `args.query`, `args.bounds` or the limit; only on a session
without a cursor is the first request the fresh URL built from `args.query`,
`args.bounds` and `limit = 1`. -/
theorem nextPageUntilAmount_request_chain (net : Net) (fuel : Nat) (args : Args) (w : World)
    (r : Outcome × World × Option Args)
    (h : nextPageUntilAmount net fuel (some args) w = some r) :
    ∃ urls : List JSVal,
      r.2.1.requests = w.requests ++ urls ∧
      (∀ k url, urls[k + 1]? = some url →
        ∃ prev body, urls[k]? = some prev ∧
          net (w.requests.length + k) prev = .response 200 body ∧
          body.links.next.truthy = true ∧ url = body.links.next) ∧
      (w.client.nextPage ≠ .null → w.client.nextPage ≠ .undefined →
        (∀ url, urls.head? = some url → url = w.client.nextPage) ∧
        (args.amount ≠ none →
          ¬ (args.query = .undefined ∧ w.client.currentQuery = .undefined) →
          ¬ (args.bounds = .undefined ∧ w.client.bounds = .undefined) →
          urls.head? = some w.client.nextPage)) ∧
      (w.client.nextPage = .null ∨ w.client.nextPage = .undefined →
        ∀ url, urls.head? = some url →
          ∃ b, args.bounds = .object b ∧ url = .str (freshUrl b (.num "1") args.query)) := by
  induction fuel generalizing args w with
  | zero => simp [nextPageUntilAmount] at h
  | succ n ih =>
    rcases nextPageUntilAmount_iter net n args w r h with
      ⟨h1, hr⟩ | ⟨_, h1, h2, hr⟩ | ⟨_, h1, h2, hr⟩ | ⟨_, reason, w3, hn, hr⟩ |
      ⟨_, w3, hn, _, hthrow⟩ | ⟨_, w3, hn, _, hcase⟩
    · refine ⟨[], by rw [hr]; simp, by intro k url hk; simp at hk, ?_, ?_⟩
      · intro _ _
        exact ⟨by intro url hu; simp at hu, fun ha _ _ => absurd h1 ha⟩
      · intro _ url hu
        simp at hu
    · refine ⟨[], by rw [hr]; simp, by intro k url hk; simp at hk, ?_, ?_⟩
      · intro _ _
        exact ⟨by intro url hu; simp at hu, fun _ hq _ => absurd ⟨h1, h2⟩ hq⟩
      · intro _ url hu
        simp at hu
    · refine ⟨[], by rw [hr]; simp, by intro k url hk; simp at hk, ?_, ?_⟩
      · intro _ _
        exact ⟨by intro url hu; simp at hu, fun _ _ hb => absurd ⟨h1, h2⟩ hb⟩
      · intro _ url hu
        simp at hu
    · rcases next_first_request net (saveParameters (restoreArray args) w) with
        ⟨hno, hreq, _⟩ | ⟨u, hreq, _, hcu, hfr⟩
      · rw [hn] at hreq
        refine ⟨[], by rw [hr]; simpa using hreq, by intro k url hk; simp at hk, ?_, ?_⟩
        · intro c1 c2
          rcases hno with hno | hno
          · exact absurd hno c1
          · exact absurd hno c2
        · intro _ url hu
          simp at hu
      · rw [hn] at hreq
        refine ⟨[u], by rw [hr]; exact hreq, by intro k url hk; simp at hk, ?_, ?_⟩
        · intro c1 c2
          have hu1 : u = w.client.nextPage := hcu c1 c2
          refine ⟨?_, fun _ _ _ => by simp [hu1]⟩
          intro url hu
          simp only [List.head?_cons, Option.some.injEq] at hu
          rw [← hu]
          exact hu1
        · intro hno url hu
          simp only [List.head?_cons, Option.some.injEq] at hu
          obtain ⟨b, hb, hub⟩ := hfr hno
          exact ⟨b, hb, by rw [← hu]; exact hub⟩
    · rcases next_first_request net (saveParameters (restoreArray args) w) with
        ⟨_, _, m, hm⟩ | ⟨u, hreq, _, hcu, hfr⟩
      · rw [hn] at hm
        simp at hm
      · rw [hn] at hreq
        refine ⟨[u], by rw [hthrow]; exact hreq, by intro k url hk; simp at hk, ?_, ?_⟩
        · intro c1 c2
          have hu1 : u = w.client.nextPage := hcu c1 c2
          refine ⟨?_, fun _ _ _ => by simp [hu1]⟩
          intro url hu
          simp only [List.head?_cons, Option.some.injEq] at hu
          rw [← hu]
          exact hu1
        · intro hno url hu
          simp only [List.head?_cons, Option.some.injEq] at hu
          obtain ⟨b, hb, hub⟩ := hfr hno
          exact ⟨b, hb, by rw [← hu]; exact hub⟩
    · rcases next_first_request net (saveParameters (restoreArray args) w) with
        ⟨_, _, m, hm⟩ | ⟨u, hreq, hnx, hcu, hfr⟩
      · rw [hn] at hm
        simp at hm
      · rw [hn] at hreq
        replace hreq : w3.requests = w.requests ++ [u] := hreq
        have hhead : (w.client.nextPage ≠ .null → w.client.nextPage ≠ .undefined →
              u = w.client.nextPage) ∧
            (w.client.nextPage = .null ∨ w.client.nextPage = .undefined →
              ∃ b, args.bounds = .object b ∧ u = .str (freshUrl b (.num "1") args.query)) :=
          ⟨hcu, hfr⟩
        rcases hcase with ⟨_, hr⟩ | ⟨hns, hrec⟩
        · refine ⟨[u], by rw [hr]; exact hreq, by intro k url hk; simp at hk, ?_, ?_⟩
          · intro c1 c2
            have hu1 : u = w.client.nextPage := hhead.1 c1 c2
            refine ⟨?_, fun _ _ _ => by simp [hu1]⟩
            intro url hu
            simp only [List.head?_cons, Option.some.injEq] at hu
            rw [← hu]
            exact hu1
          · intro hno url hu
            simp only [List.head?_cons, Option.some.injEq] at hu
            obtain ⟨b, hb, hub⟩ := hhead.2 hno
            exact ⟨b, hb, by rw [← hu]; exact hub⟩
        · obtain ⟨urls2, hreq2, hchain2, hcur2, _⟩ := ih _ w3 hrec
          rw [hnx] at hn
          obtain ⟨body, hbody, hw3⟩ := request_resolved net _ _ w3 hn
          have hnp : w3.client.nextPage = body.links.next.orElse .null := by rw [hw3]
          have hne : body.links.next.orElse .null ≠ .null :=
            fun e => hns (Or.inr (hnp.trans e))
          obtain ⟨htruthy, horelse⟩ := orElse_null_ne_null _ hne
          have hc3 := hcur2 (by rw [hnp]; exact hne)
            (by rw [hnp]; exact orElse_null_ne_undefined _)
          refine ⟨u :: urls2, ?_, ?_, ?_, ?_⟩
          · rw [hreq2, hreq]
            simp
          · intro k url hk
            cases k with
            | zero =>
              have hh : urls2.head? = some url := by
                cases urls2 with
                | nil => simp at hk
                | cons a l => simpa using hk
              have hurl := hc3.1 url hh
              exact ⟨u, body, by simp, by simpa using hbody, htruthy,
                by rw [hurl, hnp, horelse]⟩
            | succ k =>
              have hk2 : urls2[k + 1]? = some url := by simpa using hk
              obtain ⟨prev, body2, hp, hnet, ht, hu⟩ := hchain2 k url hk2
              refine ⟨prev, body2, by simpa using hp, ?_, ht, hu⟩
              rw [hreq] at hnet
              simpa [Nat.add_assoc, Nat.add_comm 1 k] using hnet
          · intro c1 c2
            have hu1 : u = w.client.nextPage := hhead.1 c1 c2
            refine ⟨?_, fun _ _ _ => by simp [hu1]⟩
            intro url hu
            simp only [List.head?_cons, Option.some.injEq] at hu
            rw [← hu]
            exact hu1
          · intro hno url hu
            simp only [List.head?_cons, Option.some.injEq] at hu
            obtain ⟨b, hb, hub⟩ := hhead.2 hno
            exact ⟨b, hb, by rw [← hu]; exact hub⟩

theorem nextPageUntilAmount_request_chain_witness :
    ∃ urls : List JSVal,
      (nextPageUntilAmount pagedNet 5 (some sampleArgs) cursorWorld).map
          (fun r => r.2.1.requests) = some (cursorWorld.requests ++ urls) ∧
      urls.head? = some (.str "cursor") :=
  match hr : nextPageUntilAmount pagedNet 5 (some sampleArgs) cursorWorld with
  | none => absurd hr (by decide)
  | some r =>
    match nextPageUntilAmount_request_chain pagedNet 5 sampleArgs cursorWorld r hr with
    | ⟨urls, h1, _, h3, _⟩ =>
      ⟨urls, congrArg some h1,
        (h3 (by decide) (by decide)).2 (by decide) (by decide) (by decide)⟩

/-! ## Termination on a finite chain of pages -/

/-- With a query and complete bounds in the arguments, the first `next()` of
`nextPageUntilAmount` is the request for `firstUrl`. -/
theorem next_saved_first (net : Net) (args : Args) (w : World) (b : Bounds)
    (hq : args.query ≠ .undefined) (hb : args.bounds = .object b)
    (hdef : fieldMissing b = false) :
    next net (saveParameters (restoreArray args) w) =
      request net (firstUrl args w)
        { saveParameters (restoreArray args) w with
          client :=
            { (saveParameters (restoreArray args) w).client with
              currentPage := w.client.nextPage } } := by
  by_cases hcur : w.client.nextPage ≠ .null ∧ w.client.nextPage ≠ .undefined
  · have hn := next_cursor net (saveParameters (restoreArray args) w) hcur.1 hcur.2
    rw [hn]
    unfold firstUrl
    rw [if_pos hcur]
    rfl
  · have hno : w.client.nextPage = .null ∨ w.client.nextPage = .undefined := by
      by_contra hx
      push_neg at hx
      exact hcur hx
    have hn := next_no_cursor net (saveParameters (restoreArray args) w) hno
    have hcq : ¬ (saveParameters (restoreArray args) w).client.currentQuery = .undefined := hq
    have hcb : (saveParameters (restoreArray args) w).client.bounds = .object b := hb
    rw [if_neg hcq, hcb] at hn
    simp only [hdef, Bool.false_eq_true, if_false] at hn
    rw [hn]
    unfold firstUrl
    rw [if_neg hcur, hb]
    rfl

/-- C20, the claim as stated fails: the server answers every request with
status 200 and a single page without a next link, and the arguments have an
amount, a query and complete bounds; the thing of the page has a channel
whose id is `hasOwnProperty`, so the filter throws and the call does not
resolve: it rejects with the `TypeError` after its one request. -/
theorem nextPageUntilAmount_shadow_page_counterexample :
    endsWithin shadowLastPage 1 (firstUrl sampleArgs freshWorld) = true ∧
      sampleArgs.amount = some 3 ∧ sampleArgs.query = .str "humidity" ∧
      sampleArgs.bounds = .object sampleBounds ∧
      (nextPageUntilAmount (serverNet shadowLastPage) 1 (some sampleArgs) freshWorld).map
          (fun r => (r.1, r.2.1.requests.length)) =
        some (.rejected (.thrown "TypeError"), 1) := by
  refine ⟨by decide, rfl, rfl, rfl, by decide⟩

/-- C20, amended: let the server be a function from the requested URL to a
status-200 body. For arguments with an amount, a query and bounds whose four
fields are defined, if the chain of pages from the first requested URL
reaches a page without a next link within `n` pages, then with fuel for `n`
entries or more `nextPageUntilAmount` returns, after at least one and at most
`n` requests, whatever the amount and the initial accumulated list are; and
it resolves when no item on the pages of that chain has a channel whose id is
`hasOwnProperty`. -/
theorem nextPageUntilAmount_terminates (server : JSVal → Body) (n m : Nat) (args : Args)
    (w : World) (amount : Int) (b : Bounds)
    (ha : args.amount = some amount) (hq : args.query ≠ .undefined)
    (hb : args.bounds = .object b)
    (hdef : b.minLat ≠ .undefined ∧ b.maxLat ≠ .undefined ∧
      b.minLon ≠ .undefined ∧ b.maxLon ≠ .undefined)
    (hend : endsWithin server n (firstUrl args w) = true) (hm : n ≤ m) :
    ∃ r, nextPageUntilAmount (serverNet server) m (some args) w = some r ∧
      w.requests.length + 1 ≤ r.2.1.requests.length ∧
      r.2.1.requests.length ≤ w.requests.length + n ∧
      (chainSafe server n (firstUrl args w) = true → r.1 = .resolved) := by
  have hmiss : fieldMissing b = false := (fieldMissing_false b).2 hdef
  induction n generalizing args w m with
  | zero => simp [endsWithin] at hend
  | succ n ih =>
    obtain ⟨m2, rfl⟩ : ∃ m2, m = m2 + 1 := ⟨m - 1, by omega⟩
    have ha2 : args.amount ≠ none := by rw [ha]; simp
    have hq2 : ¬ (args.query = .undefined ∧ w.client.currentQuery = .undefined) :=
      fun h => hq h.1
    have hb2 : ¬ (args.bounds = .undefined ∧ w.client.bounds = .undefined) := by
      rw [hb]
      simp
    obtain ⟨w3, hn, hreq3, hnp3, hth3⟩ : ∃ w3,
        next (serverNet server) (saveParameters (restoreArray args) w) = (.resolved, w3) ∧
        w3.requests = w.requests ++ [firstUrl args w] ∧
        w3.client.nextPage = (server (firstUrl args w)).links.next.orElse .null ∧
        w3.client.things = (server (firstUrl args w)).data.map Thing :=
      ⟨_, (next_saved_first (serverNet server) args w b hq hb hmiss).trans
        (request_ok (serverNet server) (firstUrl args w) _ (server (firstUrl args w)) rfl),
        rfl, rfl, rfl⟩
    have hpage : chainSafe server (n + 1) (firstUrl args w) = true →
        filterThings args w3.client.things ≠ none := by
      intro hsafe
      rw [chainSafe] at hsafe
      simp only [Bool.and_eq_true, decide_eq_true_eq] at hsafe
      rw [hth3]
      exact (filterThings_page_safe args _).2 hsafe.1
    by_cases hf : filterThings args w3.client.things = none
    · refine ⟨_, nextPageUntilAmount_of_throw (serverNet server) m2 args w w3 ha2 hq2 hb2 hn hf,
        ?_, ?_, ?_⟩
      · show w.requests.length + 1 ≤ w3.requests.length
        rw [hreq3]
        simp
      · show w3.requests.length ≤ w.requests.length + (n + 1)
        rw [hreq3]
        simp
      · intro hsafe
        exact absurd hf (hpage hsafe)
    · by_cases hs : args.amount.getD 0 ≤
          ((args.fullThingsArray.getD [] ++
            w3.client.things.filter (accepted args)).length : Int) ∨
          w3.client.nextPage = .null
      · refine ⟨_, nextPageUntilAmount_of_stop (serverNet server) m2 args w w3 ha2 hq2 hb2 hn
          hf hs, ?_, ?_, fun _ => rfl⟩
        · show w.requests.length + 1 ≤ w3.requests.length
          rw [hreq3]
          simp
        · show w3.requests.length ≤ w.requests.length + (n + 1)
          rw [hreq3]
          simp
      · have hne : (server (firstUrl args w)).links.next.orElse .null ≠ .null := by
          rw [← hnp3]
          exact fun e => hs (Or.inr e)
        have hend2 : endsWithin server n
            ((server (firstUrl args w)).links.next.orElse .null) = true := by
          rw [endsWithin] at hend
          simpa [hne] using hend
        rw [nextPageUntilAmount_of_continue (serverNet server) m2 args w w3 ha2 hq2 hb2 hn hf
          hs]
        have hfirst : ∀ a : Args, firstUrl a w3 =
            (server (firstUrl args w)).links.next.orElse .null := by
          intro a
          have hcur : firstUrl a w3 = w3.client.nextPage := by
            unfold firstUrl
            rw [if_pos ⟨by rw [hnp3]; exact hne,
              by rw [hnp3]; exact orElse_null_ne_undefined _⟩]
          rw [hcur, hnp3]
        obtain ⟨r, hr, hlo, hhi, hres⟩ := ih m2
          { args with
            fullThingsArray := some (args.fullThingsArray.getD [] ++
              w3.client.things.filter (accepted args)) }
          w3 ha hq hb (by rw [hfirst]; exact hend2) (by omega)
        refine ⟨r, hr, ?_, ?_, ?_⟩
        · rw [hreq3] at hlo
          simp at hlo
          omega
        · rw [hreq3] at hhi
          simp at hhi
          omega
        · intro hsafe
          apply hres
          rw [hfirst]
          rw [chainSafe] at hsafe
          simp only [Bool.and_eq_true, decide_eq_true_eq, Bool.or_eq_true, beq_iff_eq] at hsafe
          rcases hsafe.2 with h | h
          · exact absurd h hne
          · exact h

theorem nextPageUntilAmount_terminates_witness :
    ∃ r, nextPageUntilAmount (serverNet threePages) 3
        (some { sampleArgs with amount := some 0 }) freshWorld = some r ∧
      freshWorld.requests.length + 1 ≤ r.2.1.requests.length ∧
      r.2.1.requests.length ≤ freshWorld.requests.length + 3 ∧
      r.1 = .resolved :=
  match nextPageUntilAmount_terminates threePages 3 3 { sampleArgs with amount := some 0 }
      freshWorld 0 sampleBounds rfl (by decide) rfl
      ⟨by decide, by decide, by decide, by decide⟩ (by decide) (le_refl 3) with
  | ⟨r, h1, h2, h3, h4⟩ => ⟨r, h1, h2, h3, h4 (by decide)⟩

end Thingful
